import Mathlib

/-!
Verification of the metadata-normalization core of the Curator docs tooling.

The embedded code comes from:
* `docs/_extensions/json_output/core/json_formatter.py` — `get_nested_value`,
  `normalize_metadata_for_json`, `JSONFormatter._add_primary_content`;
* `docs/scripts/transform_frontmatter.py` — `PERSONA_MAP`, `CONTENT_TYPE_MAP`,
  `DIFFICULTY_MAP`, `extract_frontmatter`, `transform_frontmatter`;
* `docs/_extensions/rich_metadata/__init__.py` — `normalize_metadata`,
  `build_page_title`, `build_json_ld`.

Python values decoded from YAML frontmatter are modelled by the inductive
type `Val` (null, bool, int, str, list, dict); dicts are insertion-ordered
association lists, matching Python dict semantics for the operations the
code uses (get, `in`, item assignment, iteration order).  Python operations
that can raise (`.lower()` on a non-string, `dict.get` with an unhashable
key, item assignment on a non-dict) are modelled with `Option`, `none`
standing for a raised exception.
-/

namespace Curator

/-- A YAML/JSON-like Python value: `None`, `bool`, `int`, `str`, `list`, `dict`.
Dicts are insertion-ordered association lists with string keys, as produced
by YAML frontmatter decoding. -/
inductive Val where
  | null : Val
  | bool (b : Bool) : Val
  | int (n : Int) : Val
  | str (s : String) : Val
  | list (xs : List Val) : Val
  | dict (d : List (String × Val)) : Val

mutual

/-- Decidable structural equality on `Val` (Python `==` restricted to this
value universe). -/
def Val.decEq : (a b : Val) → Decidable (a = b)
  | .null, .null => .isTrue rfl
  | .bool a, .bool b =>
    if h : a = b then .isTrue (by rw [h]) else .isFalse (fun he => h (Val.bool.inj he))
  | .int a, .int b =>
    if h : a = b then .isTrue (by rw [h]) else .isFalse (fun he => h (Val.int.inj he))
  | .str a, .str b =>
    if h : a = b then .isTrue (by rw [h]) else .isFalse (fun he => h (Val.str.inj he))
  | .list xs, .list ys =>
    match Val.decEqList xs ys with
    | .isTrue h => .isTrue (by rw [h])
    | .isFalse h => .isFalse (fun he => h (Val.list.inj he))
  | .dict d, .dict e =>
    match Val.decEqDict d e with
    | .isTrue h => .isTrue (by rw [h])
    | .isFalse h => .isFalse (fun he => h (Val.dict.inj he))
  | .null, .bool _ | .null, .int _ | .null, .str _ | .null, .list _ | .null, .dict _
  | .bool _, .null | .bool _, .int _ | .bool _, .str _ | .bool _, .list _ | .bool _, .dict _
  | .int _, .null | .int _, .bool _ | .int _, .str _ | .int _, .list _ | .int _, .dict _
  | .str _, .null | .str _, .bool _ | .str _, .int _ | .str _, .list _ | .str _, .dict _
  | .list _, .null | .list _, .bool _ | .list _, .int _ | .list _, .str _ | .list _, .dict _
  | .dict _, .null | .dict _, .bool _ | .dict _, .int _ | .dict _, .str _ | .dict _, .list _ =>
    .isFalse (fun he => Val.noConfusion he)

/-- Componentwise decidable equality for lists of values. -/
def Val.decEqList : (a b : List Val) → Decidable (a = b)
  | [], [] => .isTrue rfl
  | [], _ :: _ => .isFalse (fun h => List.noConfusion h)
  | _ :: _, [] => .isFalse (fun h => List.noConfusion h)
  | x :: xs, y :: ys =>
    match Val.decEq x y, Val.decEqList xs ys with
    | .isTrue h1, .isTrue h2 => .isTrue (by rw [h1, h2])
    | .isFalse h1, _ => .isFalse (fun he => h1 (List.cons.inj he).1)
    | .isTrue _, .isFalse h2 => .isFalse (fun he => h2 (List.cons.inj he).2)

/-- Componentwise decidable equality for string-keyed entry lists. -/
def Val.decEqDict : (a b : List (String × Val)) → Decidable (a = b)
  | [], [] => .isTrue rfl
  | [], _ :: _ => .isFalse (fun h => List.noConfusion h)
  | _ :: _, [] => .isFalse (fun h => List.noConfusion h)
  | (k, v) :: xs, (k', v') :: ys =>
    match String.decEq k k', Val.decEq v v', Val.decEqDict xs ys with
    | .isTrue h0, .isTrue h1, .isTrue h2 => .isTrue (by rw [h0, h1, h2])
    | .isFalse h0, _, _ =>
      .isFalse (fun he => h0 (congrArg Prod.fst (List.cons.inj he).1))
    | .isTrue _, .isFalse h1, _ =>
      .isFalse (fun he => h1 (congrArg Prod.snd (List.cons.inj he).1))
    | .isTrue _, .isTrue _, .isFalse h2 => .isFalse (fun he => h2 (List.cons.inj he).2)

end

instance : DecidableEq Val := Val.decEq

/-- A decoded frontmatter record: an insertion-ordered dict. -/
abbrev Dict := List (String × Val)

/-- First-occurrence association-list lookup: Python `d[k]` / `k in d`
(dict keys are unique, so first occurrence is the occurrence). -/
def dget : Dict → String → Option Val
  | [], _ => none
  | (k', v) :: rest, k => if k' = k then some v else dget rest k

/-- Python `d.get(k)` (default `None`). -/
def pyGet (m : Dict) (k : String) : Val :=
  (dget m k).getD .null

/-- Python truthiness (`bool(v)`) for the embedded value universe. -/
def truthy : Val → Bool
  | .null => false
  | .bool b => b
  | .int n => n != 0
  | .str s => s != ""
  | .list xs => !xs.isEmpty
  | .dict d => !d.isEmpty

/-- Python dict item assignment `d[k] = v`: replaces the value in place if
the key is present (keeping its position), appends otherwise. -/
def dset (d : Dict) (k : String) (v : Val) : Dict :=
  match d with
  | [] => [(k, v)]
  | (k', w) :: rest => if k' = k then (k', v) :: rest else (k', w) :: dset rest k v

/-- Helper for building the output dicts of the normalizers: a key that is
conditionally emitted contributes one entry or nothing. -/
def ent (k : String) : Option Val → Dict
  | some v => [(k, v)]
  | none => []

/-- `get_nested_value` walk (json_formatter.py lines 32-38 and the identical
copy in rich_metadata lines 145-151): descend while the current value is a
dict containing the key, else return the default (`None`). -/
def walkNested : Val → List String → Val
  | v, [] => v
  | .dict d, k :: ks =>
    match dget d k with
    | some v => walkNested v ks
    | none => .null
  | _, _ :: _ => .null

/-- `get_nested_value(data, *keys)` from json_formatter.py (lines 20-38),
with the default `None`. -/
def get_nested_value (m : Dict) (ks : List String) : Val :=
  walkNested (.dict m) ks

/-- `x if isinstance(x, list) else [x]` — the list coercion used throughout
`normalize_metadata_for_json`. -/
def asList : Val → Val
  | .list xs => .list xs
  | v => .list [v]

/-- The four-entry `audience_map` literal of json_formatter.py lines 101-106
(the same literal appears in rich_metadata lines 97-102). -/
def audience_map : List (String × String) :=
  [("data-scientist-focused", "Data Scientist"),
   ("mle-focused", "Machine Learning Engineer"),
   ("admin-focused", "Cluster Administrator"),
   ("devops-focused", "DevOps Professional")]

/-- Python `tbl.get(p, p)` for a string-keyed table: a string key is looked
up (falling back to itself); other hashable values miss the table and fall
back to themselves; unhashable values (`list`, `dict`) raise `TypeError`,
modelled as `none`. -/
def pyMapGet (tbl : List (String × String)) (p : Val) : Option Val :=
  match p with
  | .str s => some (match tbl.lookup s with
      | some t => .str t
      | none => .str s)
  | .list _ => none
  | .dict _ => none
  | v => some v

/-! ### `normalize_metadata_for_json` (json_formatter.py lines 41-143)

Each conditionally-emitted field of the `normalized` dict is translated as
one definition returning `Option Val` (`none` = key not emitted), and the
function assembles them in the source's assignment order. -/

/-- Title field (lines 55-61): a dict is copied as-is, a truthy scalar is
wrapped as `{"page": scalar}`, anything else is omitted. -/
def jnTitle (m : Dict) : Option Val :=
  match pyGet m "title" with
  | .dict d => some (.dict d)
  | v => if truthy v then some (.dict [("page", v)]) else none

/-- Truthiness-gated passthrough (`description`, `status`, `only`,
`cascade`: lines 63-65, 131-141). -/
def passTruthy (m : Dict) (k : String) : Option Val :=
  let v := pyGet m k
  if truthy v then some v else none

/-- Dict-only passthrough (`social`, `dates`: lines 67-70 and 126-129). -/
def dictOnly (m : Dict) (k : String) : Option Val :=
  match pyGet m k with
  | .dict d => some (.dict d)
  | _ => none

/-- Tags field (lines 72-75): truthy value coerced to a list. -/
def jnTags (m : Dict) : Option Val :=
  if truthy (pyGet m "tags") then some (asList (pyGet m "tags")) else none

/-- `metadata.get("topics") or metadata.get("categories")` (line 78). -/
def jnTopicsSrc (m : Dict) : Val :=
  let t := pyGet m "topics"
  if truthy t then t else pyGet m "categories"

/-- Topics field (lines 77-80): the v2/legacy source, coerced to a list,
emitted only when truthy. -/
def jnTopics (m : Dict) : Option Val :=
  if truthy (jnTopicsSrc m) then some (asList (jnTopicsSrc m)) else none

/-- `get_nested_value(metadata, "content", "type") or metadata.get("content_type")`
(line 86). -/
def ctVal (m : Dict) : Val :=
  let v := get_nested_value m ["content", "type"]
  if truthy v then v else pyGet m "content_type"

/-- `get_nested_value(metadata, "content", "difficulty") or metadata.get("difficulty")`
(line 91). -/
def cdVal (m : Dict) : Val :=
  let v := get_nested_value m ["content", "difficulty"]
  if truthy v then v else pyGet m "difficulty"

/-- Audience resolution (lines 96-109): prefer a truthy `content.audience`;
else map a personas list through `audience_map` elementwise (a `TypeError`
from an unhashable element is `none`), a non-list personas becoming a
singleton list unmapped. -/
def caVal (m : Dict) : Option Val :=
  let a := get_nested_value m ["content", "audience"]
  if !truthy a && truthy (pyGet m "personas") then
    match pyGet m "personas" with
    | .list ps => (ps.mapM (pyMapGet audience_map)).map .list
    | v => some (.list [v])
  else some a

/-- The `content` sub-dict (lines 83-113): `type`, `difficulty`, `audience`
entries in assignment order, each gated on truthiness, audience coerced to
a list. -/
def jnContentEntries (m : Dict) : Option Dict := do
  let a ← caVal m
  pure ((if truthy (ctVal m) then [("type", ctVal m)] else []) ++
        (if truthy (cdVal m) then [("difficulty", cdVal m)] else []) ++
        (if truthy a then [("audience", asList a)] else []))

/-- `get_nested_value(metadata, "facets", "modality") or metadata.get("modality")`
(line 119). -/
def modVal (m : Dict) : Val :=
  let v := get_nested_value m ["facets", "modality"]
  if truthy v then v else pyGet m "modality"

/-- The `facets` sub-dict (lines 117-124): only a truthy modality is kept,
and the dict is emitted only when non-empty. -/
def jnFacets (m : Dict) : Option Val :=
  if truthy (modVal m) then some (.dict [("modality", modVal m)]) else none

/-- The `normalized` dict of `normalize_metadata_for_json`, assembled in
the source's key-assignment order, given the already-computed `content`
sub-dict `ce`. -/
def njBuild (m : Dict) (ce : Dict) : Dict :=
  ent "title" (jnTitle m) ++
  ent "description" (passTruthy m "description") ++
  ent "social" (dictOnly m "social") ++
  ent "tags" (jnTags m) ++
  ent "topics" (jnTopics m) ++
  ent "content" (if ce.isEmpty then none else some (.dict ce)) ++
  ent "facets" (jnFacets m) ++
  ent "dates" (dictOnly m "dates") ++
  ent "status" (passTruthy m "status") ++
  ent "only" (passTruthy m "only") ++
  ent "cascade" (passTruthy m "cascade")

/-- `normalize_metadata_for_json(metadata)` (json_formatter.py lines 41-143). -/
def normalize_metadata_for_json (m : Dict) : Option Dict :=
  (jnContentEntries m).map (njBuild m)







/-! ### `transform_frontmatter` (transform_frontmatter.py lines 112-207)

The rewrite tool's normalizer.  Unlike `normalize_metadata_for_json` it
gates the passthrough fields on key *presence* (`"k" in fm`), canonicalizes
legacy `content_type`/`difficulty` through fixed maps (raising
`AttributeError` — modelled `none` — when the legacy value is not a
string), uses an eight-entry persona map, and rebuilds `title` from only
its `page`/`social` sub-keys. -/

/-- `PERSONA_MAP` (transform_frontmatter.py lines 30-40): the four legacy
tokens plus four already-normalized plural forms. -/
def PERSONA_MAP : List (String × String) :=
  [("data-scientist-focused", "Data Scientist"),
   ("mle-focused", "Machine Learning Engineer"),
   ("admin-focused", "Cluster Administrator"),
   ("devops-focused", "DevOps Professional"),
   ("Data Scientists", "Data Scientist"),
   ("Machine Learning Engineers", "Machine Learning Engineer"),
   ("Cluster Administrators", "Cluster Administrator"),
   ("DevOps Professionals", "DevOps Professional")]

/-- `CONTENT_TYPE_MAP` (lines 43-53). -/
def CONTENT_TYPE_MAP : List (String × String) :=
  [("tutorial", "Tutorial"),
   ("concept", "Concept"),
   ("reference", "Reference"),
   ("workflow", "Workflow"),
   ("index", "Index"),
   ("example", "Example"),
   ("troubleshooting", "Troubleshooting"),
   ("get-started", "Get Started"),
   ("getting-started", "Get Started")]

/-- `DIFFICULTY_MAP` (lines 56-61). -/
def DIFFICULTY_MAP : List (String × String) :=
  [("beginner", "Beginner"),
   ("intermediate", "Intermediate"),
   ("advanced", "Advanced"),
   ("reference", "Intermediate")]

/-- Python `s.lower()` (ASCII as used by the maps). -/
def strLower (s : String) : String :=
  String.mk (s.data.map Char.toLower)

/-- Kernel of Python `s.title()`: uppercase a letter that follows a
non-letter, lowercase a letter that follows a letter. -/
def titleAux : List Char → Bool → List Char
  | [], _ => []
  | c :: rest, prevAlpha =>
    if c.isAlpha then
      (if prevAlpha then c.toLower else c.toUpper) :: titleAux rest true
    else c :: titleAux rest false

/-- Python `s.title()`. -/
def strTitle (s : String) : String :=
  String.mk (titleAux s.data false)

/-- Legacy `content_type` branch (lines 148-150):
`CONTENT_TYPE_MAP.get(ct.lower(), ct.title())`; `ct.lower()` on a
non-string raises (`none`). -/
def tfLegacyCT (m : Dict) : Option (Option Val) :=
  match dget m "content_type" with
  | some (.str s) =>
    some (some (.str (match CONTENT_TYPE_MAP.lookup (strLower s) with
      | some t => t
      | none => strTitle s)))
  | some _ => none
  | none => some none

/-- `content.type` resolution (lines 145-150): a `type` key inside a dict
`content` is copied verbatim, else the legacy branch runs. -/
def tfContentType (m : Dict) : Option (Option Val) :=
  match dget m "content" with
  | some (.dict d) =>
    match dget d "type" with
    | some v => some (some v)
    | none => tfLegacyCT m
  | _ => tfLegacyCT m

/-- Legacy `difficulty` branch (lines 155-157):
`DIFFICULTY_MAP.get(diff.lower(), diff.title())`. -/
def tfLegacyDiff (m : Dict) : Option (Option Val) :=
  match dget m "difficulty" with
  | some (.str s) =>
    some (some (.str (match DIFFICULTY_MAP.lookup (strLower s) with
      | some t => t
      | none => strTitle s)))
  | some _ => none
  | none => some none

/-- `content.difficulty` resolution (lines 152-157). -/
def tfDifficulty (m : Dict) : Option (Option Val) :=
  match dget m "content" with
  | some (.dict d) =>
    match dget d "difficulty" with
    | some v => some (some v)
    | none => tfLegacyDiff m
  | _ => tfLegacyDiff m

/-- Legacy `personas` branch (lines 162-167): a list is mapped elementwise
through `PERSONA_MAP` (unhashable elements raise), a non-list value is
mapped and wrapped as a singleton. -/
def tfLegacyAud (m : Dict) : Option (Option Val) :=
  match dget m "personas" with
  | some (.list ps) => (ps.mapM (pyMapGet PERSONA_MAP)).map (fun xs => some (.list xs))
  | some v => (pyMapGet PERSONA_MAP v).map (fun w => some (.list [w]))
  | none => some none

/-- `content.audience` resolution (lines 159-167). -/
def tfAudience (m : Dict) : Option (Option Val) :=
  match dget m "content" with
  | some (.dict d) =>
    match dget d "audience" with
    | some v => some (some v)
    | none => tfLegacyAud m
  | _ => tfLegacyAud m

/-- Topics field (lines 129-136): `topics` is copied verbatim when present,
else a present `categories` is coerced to a list. -/
def tfTopics (m : Dict) : Option Val :=
  match dget m "topics" with
  | some v => some v
  | none =>
    match dget m "categories" with
    | some (.list xs) => some (.list xs)
    | some v => some (.list [v])
    | none => none

/-- Facets field (lines 172-181): a dict `facets` is copied wholesale; else
a present `modality` becomes `{"modality": v}`; an empty result is omitted. -/
def tfFacets (m : Dict) : Option Val :=
  let facets : Dict :=
    match dget m "facets" with
    | some (.dict d) => d
    | _ =>
      match dget m "modality" with
      | some v => [("modality", v)]
      | none => []
  if facets.isEmpty then none else some (.dict facets)

/-- Title field (lines 196-205): only a dict title survives, filtered to
its `page` and `social` entries (in that order), omitted when empty. -/
def tfTitle (m : Dict) : Option Val :=
  match dget m "title" with
  | some (.dict d) =>
    let t : Dict :=
      (match dget d "page" with
       | some v => [("page", v)]
       | none => []) ++
      (match dget d "social" with
       | some v => [("social", v)]
       | none => [])
    if t.isEmpty then none else some (.dict t)
  | _ => none

/-- The `new_fm` dict of `transform_frontmatter` (lines 112-207), assembled
in the source's key-assignment order, given the already-computed `content`
sub-dict. -/
def tfBuild (m : Dict) (content : Dict) : Dict :=
  ent "description" (dget m "description") ++
  ent "topics" (tfTopics m) ++
  ent "tags" (dget m "tags") ++
  ent "content" (if content.isEmpty then none else some (.dict content)) ++
  ent "facets" (tfFacets m) ++
  ent "status" (dget m "status") ++
  ent "dates" (dget m "dates") ++
  ent "social" (dget m "social") ++
  ent "only" (dget m "only") ++
  ent "title" (tfTitle m)

/-- The `content` sub-dict of `transform_frontmatter` from the three
resolved sub-fields. -/
def tfContentDict (ct cd ca : Option Val) : Dict :=
  (match ct with | some v => [("type", v)] | none => []) ++
  (match cd with | some v => [("difficulty", v)] | none => []) ++
  (match ca with | some v => [("audience", v)] | none => [])

/-- `transform_frontmatter(fm)` (transform_frontmatter.py lines 112-207):
`none` when the Python raises (non-string legacy `content_type` or
`difficulty`, unhashable persona). -/
def transform_frontmatter (m : Dict) : Option Dict := do
  let ct ← tfContentType m
  let cd ← tfDifficulty m
  let ca ← tfAudience m
  pure (tfBuild m (tfContentDict ct cd ca))







/-! ### `extract_frontmatter` (transform_frontmatter.py lines 64-109)

Documents are lists of characters.  The three closing-delimiter regexes are
prefix predicates searched left to right (`re.search` returns the leftmost
match), tried in the source's priority order. -/

/-- Python regex `\w` (ASCII): letter, digit or underscore. -/
def isWordChar (c : Char) : Bool :=
  c.isAlphanum || c = '_'

/-- The corrupted closing delimiter `\n---(?=\()` (line 82). -/
def matchParen (l : List Char) : Bool :=
  ['\n', '-', '-', '-', '('].isPrefixOf l

/-- The corrupted closing delimiter `\n---(?=[#\w])` (line 89). -/
def matchHash (l : List Char) : Bool :=
  ['\n', '-', '-', '-'].isPrefixOf l &&
  (match l.drop 4 with
   | c :: _ => c = '#' || isWordChar c
   | [] => false)

/-- The well-formed closing delimiter `\n---\n` (line 96). -/
def matchProper (l : List Char) : Bool :=
  ['\n', '-', '-', '-', '\n'].isPrefixOf l

/-- `re.search`: index of the leftmost position whose suffix satisfies the
pattern predicate. -/
def findFirst (p : List Char → Bool) : List Char → Option Nat
  | [] => if p [] then some 0 else none
  | c :: l => if p (c :: l) then some 0 else (findFirst p l).map (· + 1)

/-- The delimiter-splitting part of `extract_frontmatter` (lines 74-102):
`(frontmatter_raw, body)` when an opening `---` and some closing variant
are found, trying the three variants in the source's priority order; the
matched position `s` is relative to `content[3:]`, the closing delimiter
starts at `s + 3` in `content`, the raw block is `content[4:s+3]`, and the
body skips 4 characters (corrupted variants, keeping the `(`/`#`/word
character) or 5 (well-formed variant). -/
def extract_split (content : List Char) : Option (List Char × List Char) :=
  if ("---".data.isPrefixOf content) = false then none
  else
    match findFirst matchParen (content.drop 3) with
    | some s => some ((content.take (s + 3)).drop 4, content.drop (s + 7))
    | none =>
      match findFirst matchHash (content.drop 3) with
      | some s => some ((content.take (s + 3)).drop 4, content.drop (s + 7))
      | none =>
        match findFirst matchProper (content.drop 3) with
        | some s => some ((content.take (s + 3)).drop 4, content.drop (s + 8))
        | none => none

/-- One `key: value` line of a flat YAML mapping. -/
def parseYamlLine (l : List Char) : Option (String × Val) :=
  match l.dropWhile (· ≠ ':') with
  | ':' :: ' ' :: v => some (String.mk (l.takeWhile (· ≠ ':')), .str (String.mk v))
  | _ => none

/-- Modelled from the spec: the external YAML decoder (`yaml.safe_load`),
which the spec lists among the assumed-correct standard encoders, restricted
to the flat `key: value` string mappings the claims exercise; `none` covers
both a null result and a parse error (the caller treats them alike). -/
def yamlSafeLoad (raw : List Char) : Option Dict :=
  let lines := (raw.splitOn '\n').filter (fun l => !l.isEmpty)
  if lines.isEmpty then none else lines.mapM parseYamlLine

/-- `extract_frontmatter(content)` (lines 64-109): the triple
`(frontmatter, frontmatter_raw, body)`; the YAML step is the spec-modelled
external decoder. -/
def extract_frontmatter (content : List Char) : Option Dict × List Char × List Char :=
  match extract_split content with
  | none => (none, [], content)
  | some (raw, body) => (yamlSafeLoad raw, raw, body)

/-! ### `normalize_metadata` (rich_metadata/__init__.py lines 53-130) -/

/-- Substring test (Python `k in s` for strings). -/
def hasSubstr (p : List Char) : List Char → Bool
  | [] => p.isEmpty
  | c :: rest => p.isPrefixOf (c :: rest) || hasSubstr p rest

/-- Python `k in v` for an arbitrary container value: dict key test, string
substring test, list membership; `int`, `bool` and `None` raise `TypeError`
(`none`). -/
def pyContains (v : Val) (k : String) : Option Bool :=
  match v with
  | .dict d => some (dget d k).isSome
  | .str s => some (hasSubstr k.data s.data)
  | .list xs => some (xs.any (fun x => x == .str k))
  | _ => none

/-- Python item assignment `v[k] = w` on an arbitrary value: only dicts
support it, anything else raises (`none`). -/
def pySetItem (v : Val) (k : String) (w : Val) : Option Val :=
  match v with
  | .dict d => some (.dict (dset d k w))
  | _ => none

/-- `normalize_metadata(metadata)` of rich_metadata (lines 53-130): starts
from a copy of the input, ensures `content` and `facets` keys exist
(creating empty records), fills legacy `content_type`/`difficulty`/
`personas` into the `content` record (in place), `categories` into
`topics`, and `modality` into `facets`; `none` models a `TypeError` raised
when a non-dict `content`/`facets` value is probed or assigned. -/
def normalize_metadata (m : Dict) : Option Dict := do
  let n1 := if (dget m "content").isSome then m else dset m "content" (.dict [])
  let content0 := pyGet n1 "content"
  let content1 ←
    if (dget n1 "content_type").isSome then do
      let b ← pyContains content0 "type"
      if b then pure content0 else pySetItem content0 "type" (pyGet n1 "content_type")
    else pure content0
  let content2 ←
    if (dget n1 "difficulty").isSome then do
      let b ← pyContains content1 "difficulty"
      if b then pure content1 else pySetItem content1 "difficulty" (pyGet n1 "difficulty")
    else pure content1
  let content3 ←
    if (dget n1 "personas").isSome then do
      let b ← pyContains content2 "audience"
      if b then pure content2
      else
        match pyGet n1 "personas" with
        | .list ps => do
          let vs ← ps.mapM (pyMapGet audience_map)
          pySetItem content2 "audience" (.list vs)
        | v => pySetItem content2 "audience" (.list [v])
    else pure content2
  let n2 := dset n1 "content" content3
  let n3 :=
    if (dget n2 "categories").isSome && (dget n2 "topics").isNone then
      dset n2 "topics" (pyGet n2 "categories")
    else n2
  let n4 := if (dget n3 "facets").isSome then n3 else dset n3 "facets" (.dict [])
  let n5 ←
    if (dget n4 "modality").isSome then do
      let f := pyGet n4 "facets"
      let b ← pyContains f "modality"
      if b then pure n4
      else do
        let f2 ← pySetItem f "modality" (pyGet n4 "modality")
        pure (dset n4 "facets" f2)
    else pure n4
  pure n5

/-! ### `JSONFormatter._add_primary_content` (json_formatter.py lines 388-402) -/

/-- Whitespace-delimited token count: Python `len(s.split())`; the flag
records whether the previous character was inside a token. -/
def countWords : List Char → Bool → Nat
  | [], _ => 0
  | c :: rest, inWord =>
    if c.isWhitespace then countWords rest false
    else (if inWord then 0 else 1) + countWords rest true

/-- `_add_primary_content(data, content_data)` (lines 388-402), with the
externally configured `content_max_length` setting passed as a parameter:
skips falsy content; truncates to `content_max_length` characters plus the
`"..."` marker when the positive limit is exceeded (0 disables truncation);
records `format`, the original character count and the original word count;
a truthy non-string content raises (`none`). -/
def add_primary_content (data content_data : Dict) (content_max_length : Nat) :
    Option Dict :=
  if truthy (pyGet content_data "content") = false then some data
  else
    match pyGet content_data "content" with
    | .str s =>
      let orig := s.data
      let c : List Char :=
        if 0 < content_max_length ∧ content_max_length < orig.length
        then orig.take content_max_length ++ ['.', '.', '.']
        else orig
      let fmt :=
        match dget content_data "format" with
        | some v => v
        | none => .str "text"
      some (dset (dset (dset (dset data "content" (.str (String.mk c)))
        "format" fmt) "content_length" (.int orig.length)) "word_count"
        (.int (countWords orig false)))
    | _ => none

/-! ### `build_page_title` and `build_json_ld` (rich_metadata/__init__.py) -/

/-- The slice of the Sphinx page context consumed by the HTML metadata
projector (an external collaborator, typed per its interface): the
page-context `title`, the breadcrumb `parents` list (records with an
optional `title`), the site title `docstitle`, and `pageurl`.  An absent
`parents` and an empty list behave identically in the source (both falsy),
so both are the empty list. -/
structure PageContext where
  title : Option Val
  parents : List Dict
  docstitle : Option Val
  pageurl : Option Val

mutual

/-- Python `str()` on the value universe (f-string interpolation). -/
def pyStr : Val → String
  | .str s => s
  | v => pyRepr v

/-- Python `repr()`, which `str()` uses on containers. -/
def pyRepr : Val → String
  | .null => "None"
  | .bool b => if b then "True" else "False"
  | .int n => toString n
  | .str s => "\x27" ++ s ++ "\x27"
  | .list xs => "[" ++ String.intercalate ", " (pyReprList xs) ++ "]"
  | .dict d => "\x7b" ++ String.intercalate ", " (pyReprDict d) ++ "\x7d"

/-- `repr` of the elements of a list. -/
def pyReprList : List Val → List String
  | [] => []
  | v :: rest => pyRepr v :: pyReprList rest

/-- `repr` of the entries of a dict. -/
def pyReprDict : List (String × Val) → List String
  | [] => []
  | (k, v) :: rest => ("\x27" ++ k ++ "\x27: " ++ pyRepr v) :: pyReprDict rest

end

/-- `build_page_title(metadata, context, pagename)` (rich_metadata lines
198-239): base title from normalized `title.page`, else the page-context
title; `None` (no override) when that base is falsy; the immediate parent's
distinct title and the distinct site title are appended, and one of three
fixed templates renders the components, always suffixed `" | NVIDIA"`. -/
def build_page_title (metadata : Dict) (ctx : PageContext) : Option String :=
  let t := get_nested_value metadata ["title", "page"]
  let page_title := if truthy t then t else ctx.title.getD (.str "")
  if truthy page_title = false then none
  else
    let comps1 : List Val := [page_title]
    let comps2 :=
      if ctx.parents.isEmpty then comps1
      else
        match ctx.parents.getLast? with
        | some parent =>
          match dget parent "title" with
          | some pt => if pt ≠ page_title then comps1 ++ [pt] else comps1
          | none => comps1
        | none => comps1
    let site := ctx.docstitle.getD (.str "")
    let comps3 :=
      if truthy site = true ∧ site ≠ page_title then comps2 ++ [site] else comps2
    match comps3 with
    | [a] => some (pyStr a ++ " | NVIDIA")
    | [a, b] => some (pyStr a ++ " - " ++ pyStr b ++ " | NVIDIA")
    | a :: b :: c :: _ =>
      some (pyStr a ++ ": " ++ pyStr b ++ " - " ++ pyStr c ++ " | NVIDIA")
    | [] => none

/-- The `type_mapping` literal of `build_json_ld` (rich_metadata lines
439-447). -/
def type_mapping : List (String × String) :=
  [("tutorial", "HowTo"),
   ("troubleshooting", "HowTo"),
   ("concept", "Article"),
   ("reference", "TechArticle"),
   ("example", "HowTo"),
   ("get started", "HowTo"),
   ("code sample", "HowTo")]

/-- The `difficulty_map` literal of `build_json_ld` (lines 456-461). -/
def difficulty_map : List (String × String) :=
  [("beginner", "Beginner"),
   ("intermediate", "Intermediate"),
   ("advanced", "Expert"),
   ("reference", "Expert")]

/-- The hardcoded `publisher` organization block (lines 478-482). -/
def publisherVal : Val :=
  .dict [("@type", .str "Organization"),
         ("name", .str "NVIDIA Corporation"),
         ("url", .str "https://www.nvidia.com")]

/-- The base `structured_data` of `build_json_ld` (rich_metadata lines
415-418). -/
def jld0 : Dict :=
  [("@context", .str "https://schema.org"), ("@type", .str "TechArticle")]

/-- Title block (lines 420-424): `headline`/`name` from normalized
`title.page`, else the context title (default `None`), added only when
truthy. -/
def jldTitle (m : Dict) (ctx : PageContext) (d : Dict) : Dict :=
  let pt :=
    let t := get_nested_value m ["title", "page"]
    if truthy t then t else ctx.title.getD .null
  if truthy pt then dset (dset d "headline" pt) "name" pt else d

/-- Description block (lines 426-428): presence-gated. -/
def jldDescription (m : Dict) (d : Dict) : Dict :=
  match dget m "description" with
  | some v => dset d "description" v
  | none => d

/-- Keywords block (lines 430-432): only a list-valued `tags`. -/
def jldKeywords (m : Dict) (d : Dict) : Dict :=
  match dget m "tags" with
  | some (.list xs) => dset d "keywords" (.list xs)
  | _ => d

/-- Content-type remapping block (lines 434-449): the resolved content
type — `ctVal`, textually the same resolution as json_formatter line 86 —
is lowercased (raising on a truthy non-string, modelled `none`) and looked
up case-insensitively in `type_mapping`; a hit re-assigns `@type` in
place, a miss leaves the base type. -/
def jldType (m : Dict) (d : Dict) : Option Dict :=
  if truthy (ctVal m) then
    match ctVal m with
    | .str s =>
      some (match type_mapping.lookup (strLower s) with
        | some t => dset d "@type" (.str t)
        | none => d)
    | _ => none
  else some d

/-- Difficulty block (lines 451-463): as `jldType` with `difficulty_map`
(`cdVal` is textually the same resolution as json_formatter line 91); an
unmapped difficulty emits no `proficiencyLevel`. -/
def jldProficiency (m : Dict) (d : Dict) : Option Dict :=
  if truthy (cdVal m) then
    match cdVal m with
    | .str s =>
      some (match difficulty_map.lookup (strLower s) with
        | some t => dset d "proficiencyLevel" (.str t)
        | none => d)
    | _ => none
  else some d

/-- Audience block (lines 465-471): only a truthy list. -/
def jldAudience (m : Dict) (d : Dict) : Dict :=
  let aud := get_nested_value m ["content", "audience"]
  if truthy aud then
    match aud with
    | .list xs =>
      dset d "audience"
        (.dict [("@type", .str "Audience"), ("audienceType", .list xs)])
    | _ => d
  else d

/-- URL block (lines 473-475). -/
def jldUrl (ctx : PageContext) (d : Dict) : Dict :=
  match ctx.pageurl with
  | some u => dset d "url" u
  | none => d

/-- Publisher block (lines 477-482): the hardcoded NVIDIA organization,
always added. -/
def jldPublisher (d : Dict) : Dict :=
  dset d "publisher" publisherVal

/-- Product block (lines 484-497): a `SoftwareApplication` from
`cascade.product` when a truthy name is present. -/
def jldAbout (m : Dict) (d : Dict) : Dict :=
  match dget m "cascade" with
  | some (.dict c) =>
    match dget c "product" with
    | some (.dict p) =>
      if truthy (pyGet p "name") then
        let about0 : Dict :=
          [("@type", .str "SoftwareApplication"),
           ("name", (dget p "name").getD (.str "")),
           ("applicationCategory", .str "Data Curation Software"),
           ("operatingSystem", .str "Linux")]
        let about :=
          if truthy (pyGet p "version") then
            dset about0 "softwareVersion" (pyGet p "version")
          else about0
        dset d "about" (.dict about)
      else d
    | _ => d
  | _ => d

/-- Modality block (lines 499-506): the resolved modality — `modVal`,
textually the same resolution as json_formatter line 119. -/
def jldModality (m : Dict) (d : Dict) : Dict :=
  if truthy (modVal m) then
    dset d "additionalProperty"
      (.dict [("@type", .str "PropertyValue"), ("name", .str "modality"),
              ("value", modVal m)])
  else d

/-- The `structured_data` dict of `build_json_ld(metadata, context)`
(rich_metadata lines 414-507): the source blocks applied in assignment
order (`dset` keeps the position of the re-assigned `@type`); `none`
models the `AttributeError` from `.lower()` on a truthy non-string
resolved content type or difficulty. -/
def build_json_ld_data (m : Dict) (ctx : PageContext) : Option Dict := do
  let d4 ← jldType m (jldKeywords m (jldDescription m (jldTitle m ctx jld0)))
  let d5 ← jldProficiency m d4
  pure (jldModality m (jldAbout m (jldPublisher (jldUrl ctx (jldAudience m d5)))))

mutual

/-- Modelled from the spec: the external JSON encoder (`json.dumps`), which
the spec lists among the assumed-correct standard encoders; whitespace
layout and escaping details are immaterial to the claims. -/
def jsonDumps : Val → String
  | .null => "null"
  | .bool b => if b then "true" else "false"
  | .int n => toString n
  | .str s => "\"" ++ s ++ "\""
  | .list xs => "[" ++ String.intercalate ", " (jsonDumpsList xs) ++ "]"
  | .dict d => "\x7b" ++ String.intercalate ", " (jsonDumpsDict d) ++ "\x7d"

/-- Encoded elements of a JSON array. -/
def jsonDumpsList : List Val → List String
  | [] => []
  | v :: rest => jsonDumps v :: jsonDumpsList rest

/-- Encoded entries of a JSON object. -/
def jsonDumpsDict : List (String × Val) → List String
  | [] => []
  | (k, v) :: rest => ("\"" ++ k ++ "\": " ++ jsonDumps v) :: jsonDumpsDict rest

end

/-- `build_json_ld(metadata, context)` (lines 403-510): the script element
wrapping the serialized structured data. -/
def build_json_ld (m : Dict) (ctx : PageContext) : Option String :=
  (build_json_ld_data m ctx).map (fun d =>
    "<script type=\"application/ld+json\">\n" ++ jsonDumps (.dict d) ++ "\n</script>")

/-! ### Sanity checks of the embedding on concrete records -/

example :
    normalize_metadata_for_json
      [("categories", .list [.str "A"]), ("topics", .list [.str "B"])] =
    some [("topics", .list [.str "B"])] := by decide

example :
    normalize_metadata_for_json
      [("personas", .list [.str "mle-focused", .str "unknown-x"])] =
    some [("content", .dict
      [("audience", .list [.str "Machine Learning Engineer", .str "unknown-x"])])] := by
  decide

example :
    normalize_metadata_for_json [("status", .bool false), ("title", .str "T")] =
    some [("title", .dict [("page", .str "T")])] := by decide

example :
    transform_frontmatter [("content_type", .str "tutorial"),
                           ("personas", .str "Data Scientists")] =
    some [("content", .dict [("type", .str "Tutorial"),
                             ("audience", .list [.str "Data Scientist"])])] := by decide

example :
    transform_frontmatter [("content_type", .str "how-to guide")] =
    some [("content", .dict [("type", .str "How-To Guide")])] := by decide

example :
    normalize_metadata [("categories", .list [.str "A"]), ("modality", .str "text")] =
    some [("categories", .list [.str "A"]), ("modality", .str "text"),
          ("content", .dict []), ("topics", .list [.str "A"]),
          ("facets", .dict [("modality", .str "text")])] := by decide

/-! ### Lookup lemmas for the assembled dicts -/

theorem dget_nil (k : String) : dget [] k = none := rfl

theorem dget_dset_self (d : Dict) (k : String) (v : Val) :
    dget (dset d k v) k = some v := by
  induction d with
  | nil => simp [dset, dget]
  | cons e rest ih =>
    obtain ⟨k', w⟩ := e
    by_cases h : k' = k <;> simp [dset, dget, h, ih]

theorem dget_dset_ne (d : Dict) (k' k : String) (v : Val) (h : k' ≠ k) :
    dget (dset d k' v) k = dget d k := by
  induction d with
  | nil => simp [dset, dget, h]
  | cons e rest ih =>
    obtain ⟨k2, w⟩ := e
    by_cases h2 : k2 = k' <;> by_cases h3 : k2 = k <;>
      simp_all [dset, dget]

theorem dget_append (l1 l2 : Dict) (k : String) :
    dget (l1 ++ l2) k = (dget l1 k).or (dget l2 k) := by
  induction l1 with
  | nil => simp [dget]
  | cons e rest ih =>
    obtain ⟨k', v⟩ := e
    by_cases h : k' = k <;> simp [dget, h, ih]

theorem dget_ent (k1 k : String) (o : Option Val) (l : Dict) :
    dget (ent k1 o ++ l) k = if k1 = k then o.or (dget l k) else dget l k := by
  cases o with
  | none => simp [ent, dget]
  | some v => simp only [ent, List.cons_append, List.nil_append, dget]; split <;> simp

theorem dget_ent_last (k1 k : String) (o : Option Val) :
    dget (ent k1 o) k = if k1 = k then o else none := by
  cases o with
  | none => simp [ent, dget]
  | some v => simp [ent, dget]

/-- Every lookup into the dict built by `normalize_metadata_for_json`,
keyed by field. -/
theorem dget_njBuild (m : Dict) (ce : Dict) (k : String) :
    dget (njBuild m ce) k =
      if "title" = k then jnTitle m
      else if "description" = k then passTruthy m "description"
      else if "social" = k then dictOnly m "social"
      else if "tags" = k then jnTags m
      else if "topics" = k then jnTopics m
      else if "content" = k then (if ce.isEmpty then none else some (.dict ce))
      else if "facets" = k then jnFacets m
      else if "dates" = k then dictOnly m "dates"
      else if "status" = k then passTruthy m "status"
      else if "only" = k then passTruthy m "only"
      else if "cascade" = k then passTruthy m "cascade"
      else none := by
  by_cases h1 : "title" = k
  · subst h1; simp [njBuild, dget_ent, dget_ent_last, dget_nil]
  by_cases h2 : "description" = k
  · subst h2; simp [njBuild, dget_ent, dget_ent_last, dget_nil]
  by_cases h3 : "social" = k
  · subst h3; simp [njBuild, dget_ent, dget_ent_last, dget_nil]
  by_cases h4 : "tags" = k
  · subst h4; simp [njBuild, dget_ent, dget_ent_last, dget_nil]
  by_cases h5 : "topics" = k
  · subst h5; simp [njBuild, dget_ent, dget_ent_last, dget_nil]
  by_cases h6 : "content" = k
  · subst h6; simp [njBuild, dget_ent, dget_ent_last, dget_nil]
  by_cases h7 : "facets" = k
  · subst h7; simp [njBuild, dget_ent, dget_ent_last, dget_nil]
  by_cases h8 : "dates" = k
  · subst h8; simp [njBuild, dget_ent, dget_ent_last, dget_nil]
  by_cases h9 : "status" = k
  · subst h9; simp [njBuild, dget_ent, dget_ent_last, dget_nil]
  by_cases h10 : "only" = k
  · subst h10; simp [njBuild, dget_ent, dget_ent_last, dget_nil]
  by_cases h11 : "cascade" = k
  · subst h11; simp [njBuild, dget_ent, dget_ent_last, dget_nil]
  simp [njBuild, dget_ent, dget_ent_last, dget_nil, h1, h2, h3, h4, h5, h6, h7, h8, h9, h10, h11]

/-- Every lookup into the dict built by `transform_frontmatter`, keyed by
field. -/
theorem dget_tfBuild (m : Dict) (content : Dict) (k : String) :
    dget (tfBuild m content) k =
      if "description" = k then dget m "description"
      else if "topics" = k then tfTopics m
      else if "tags" = k then dget m "tags"
      else if "content" = k then (if content.isEmpty then none else some (.dict content))
      else if "facets" = k then tfFacets m
      else if "status" = k then dget m "status"
      else if "dates" = k then dget m "dates"
      else if "social" = k then dget m "social"
      else if "only" = k then dget m "only"
      else if "title" = k then tfTitle m
      else none := by
  by_cases h1 : "description" = k
  · subst h1; simp [tfBuild, dget_ent, dget_ent_last, dget_nil]
  by_cases h2 : "topics" = k
  · subst h2; simp [tfBuild, dget_ent, dget_ent_last, dget_nil]
  by_cases h3 : "tags" = k
  · subst h3; simp [tfBuild, dget_ent, dget_ent_last, dget_nil]
  by_cases h4 : "content" = k
  · subst h4; simp [tfBuild, dget_ent, dget_ent_last, dget_nil]
  by_cases h5 : "facets" = k
  · subst h5; simp [tfBuild, dget_ent, dget_ent_last, dget_nil]
  by_cases h6 : "status" = k
  · subst h6; simp [tfBuild, dget_ent, dget_ent_last, dget_nil]
  by_cases h7 : "dates" = k
  · subst h7; simp [tfBuild, dget_ent, dget_ent_last, dget_nil]
  by_cases h8 : "social" = k
  · subst h8; simp [tfBuild, dget_ent, dget_ent_last, dget_nil]
  by_cases h9 : "only" = k
  · subst h9; simp [tfBuild, dget_ent, dget_ent_last, dget_nil]
  by_cases h10 : "title" = k
  · subst h10; simp [tfBuild, dget_ent, dget_ent_last, dget_nil]
  simp [tfBuild, dget_ent, dget_ent_last, dget_nil, h1, h2, h3, h4, h5, h6, h7, h8, h9, h10]

/-! ### Stability of the `normalize_metadata_for_json` fields on their own
output — the ingredients of idempotence (claim C1). -/

theorem truthy_null : truthy .null = false := rfl

theorem truthy_asList {v : Val} (h : truthy v = true) : truthy (asList v) = true := by
  cases v <;> simp_all [asList, truthy]

theorem asList_asList (v : Val) : asList (asList v) = asList v := by
  cases v <;> simp [asList]

theorem asList_list {v : Val} (h : truthy v = true) :
    ∃ xs, asList v = .list xs ∧ xs ≠ [] := by
  cases v <;> simp_all [asList, truthy]

theorem passTruthy_cases (m : Dict) (k : String) :
    passTruthy m k = none ∨ ∃ v, passTruthy m k = some v ∧ truthy v = true := by
  by_cases h : truthy (pyGet m k) = true
  · exact Or.inr ⟨pyGet m k, by simp [passTruthy, h], h⟩
  · exact Or.inl (by simp [passTruthy, h])

theorem passTruthy_stable {n : Dict} {k : String} {o : Option Val}
    (h : dget n k = o) (ho : o = none ∨ ∃ v, o = some v ∧ truthy v = true) :
    passTruthy n k = o := by
  rcases ho with rfl | ⟨v, rfl, hv⟩
  · simp [passTruthy, pyGet, h, truthy]
  · simp [passTruthy, pyGet, h, hv]

theorem dictOnly_cases (m : Dict) (k : String) :
    dictOnly m k = none ∨ ∃ d, dictOnly m k = some (.dict d) := by
  unfold dictOnly
  cases h : pyGet m k <;> simp

theorem dictOnly_stable {n m : Dict} {k : String}
    (h : dget n k = dictOnly m k) : dictOnly n k = dictOnly m k := by
  rcases dictOnly_cases m k with h0 | ⟨d, h0⟩ <;> rw [h0] at h ⊢
  · simp [dictOnly, pyGet, h]
  · simp [dictOnly, pyGet, h]

theorem jnTitle_cases (m : Dict) :
    jnTitle m = none ∨ ∃ d, jnTitle m = some (.dict d) := by
  unfold jnTitle
  cases h : pyGet m "title" <;> simp

theorem jnTitle_stable {n m : Dict}
    (h : dget n "title" = jnTitle m) : jnTitle n = jnTitle m := by
  rcases jnTitle_cases m with h0 | ⟨d, h0⟩ <;> rw [h0] at h ⊢
  · simp [jnTitle, pyGet, h, truthy]
  · simp [jnTitle, pyGet, h]

theorem jnTags_cases (m : Dict) :
    jnTags m = none ∨ ∃ xs, jnTags m = some (.list xs) ∧ xs ≠ [] := by
  unfold jnTags
  by_cases h : truthy (pyGet m "tags") = true
  · rcases asList_list h with ⟨xs, hx, hne⟩
    exact Or.inr ⟨xs, by simp [h, hx], hne⟩
  · simp [h]

theorem jnTags_stable {n m : Dict}
    (h : dget n "tags" = jnTags m) : jnTags n = jnTags m := by
  rcases jnTags_cases m with h0 | ⟨xs, h0, hne⟩ <;> rw [h0] at h ⊢
  · simp [jnTags, pyGet, h, truthy]
  · simp [jnTags, pyGet, h, truthy, asList, hne]

theorem jnTopics_cases (m : Dict) :
    jnTopics m = none ∨ ∃ xs, jnTopics m = some (.list xs) ∧ xs ≠ [] := by
  unfold jnTopics
  by_cases h : truthy (jnTopicsSrc m) = true
  · rcases asList_list h with ⟨xs, hx, hne⟩
    exact Or.inr ⟨xs, by simp [h, hx], hne⟩
  · simp [h]

theorem jnTopics_stable {n m : Dict}
    (h : dget n "topics" = jnTopics m) (hc : dget n "categories" = none) :
    jnTopics n = jnTopics m := by
  rcases jnTopics_cases m with h0 | ⟨xs, h0, hne⟩ <;> rw [h0] at h ⊢
  · simp [jnTopics, jnTopicsSrc, pyGet, h, hc, truthy]
  · simp [jnTopics, jnTopicsSrc, pyGet, h, truthy, asList, hne]

theorem jnFacets_cases (m : Dict) :
    jnFacets m = none ∨ ∃ v, jnFacets m = some (.dict [("modality", v)]) ∧ truthy v = true := by
  unfold jnFacets
  by_cases h : truthy (modVal m) = true
  · exact Or.inr ⟨modVal m, by simp [h], h⟩
  · simp [h]

theorem jnFacets_stable {n m : Dict}
    (h : dget n "facets" = jnFacets m) (hm : dget n "modality" = none) :
    jnFacets n = jnFacets m := by
  rcases jnFacets_cases m with h0 | ⟨v, h0, hv⟩ <;> rw [h0] at h ⊢
  · simp [jnFacets, modVal, get_nested_value, walkNested, pyGet, h, hm, truthy]
  · simp [jnFacets, modVal, get_nested_value, walkNested, pyGet, dget, h, hv]

theorem jnContent_stable {m n ce : Dict}
    (hce : jnContentEntries m = some ce)
    (hc : dget n "content" = (if ce.isEmpty then none else some (.dict ce)))
    (hct : dget n "content_type" = none) (hd : dget n "difficulty" = none)
    (hp : dget n "personas" = none) :
    jnContentEntries n = some ce := by
  cases ha : caVal m with
  | none => unfold jnContentEntries at hce; rw [ha] at hce; simp at hce
  | some a =>
    unfold jnContentEntries at hce
    rw [ha] at hce
    set ct := ctVal m with hct0
    set cd := cdVal m with hcd0
    simp only [Option.bind_eq_bind, Option.some_bind, Option.pure_def,
      Option.some.injEq] at hce
    by_cases ht : truthy ct = true <;> by_cases hdf : truthy cd = true <;>
      by_cases hau : truthy a = true <;>
      (simp only [ht, hdf, hau, if_true, if_false, Bool.not_eq_true,
         List.nil_append, List.append_nil, List.cons_append, List.singleton_append] at hce
       subst hce
       simp at hc
       simp [jnContentEntries, caVal, ctVal, cdVal, get_nested_value, walkNested, pyGet,
         hc, dget, hct, hd, hp, truthy_null, ht, hdf, hau, truthy_asList, asList_asList])

/-- Idempotence of the JSON projector's normalizer: re-normalizing its own
output reproduces it. -/
theorem normalize_metadata_for_json_idem (m : Dict) :
    (normalize_metadata_for_json m).bind normalize_metadata_for_json =
      normalize_metadata_for_json m := by
  cases hce : jnContentEntries m with
  | none => simp [normalize_metadata_for_json, hce]
  | some ce =>
    have hn : normalize_metadata_for_json m = some (njBuild m ce) := by
      simp [normalize_metadata_for_json, hce]
    rw [hn, Option.some_bind]
    set N := njBuild m ce with hN
    have hT : dget N "title" = jnTitle m := by rw [hN, dget_njBuild]; simp
    have hD : dget N "description" = passTruthy m "description" := by
      rw [hN, dget_njBuild]; simp
    have hSoc : dget N "social" = dictOnly m "social" := by
      rw [hN, dget_njBuild]; simp
    have hTag : dget N "tags" = jnTags m := by rw [hN, dget_njBuild]; simp
    have hTop : dget N "topics" = jnTopics m := by rw [hN, dget_njBuild]; simp
    have hCat : dget N "categories" = none := by rw [hN, dget_njBuild]; simp
    have hC : dget N "content" =
        (if ce.isEmpty then none else some (.dict ce)) := by rw [hN, dget_njBuild]; simp
    have hCT : dget N "content_type" = none := by rw [hN, dget_njBuild]; simp
    have hDf : dget N "difficulty" = none := by rw [hN, dget_njBuild]; simp
    have hP : dget N "personas" = none := by rw [hN, dget_njBuild]; simp
    have hF : dget N "facets" = jnFacets m := by rw [hN, dget_njBuild]; simp
    have hMo : dget N "modality" = none := by rw [hN, dget_njBuild]; simp
    have hDat : dget N "dates" = dictOnly m "dates" := by
      rw [hN, dget_njBuild]; simp
    have hSt : dget N "status" = passTruthy m "status" := by
      rw [hN, dget_njBuild]; simp
    have hOn : dget N "only" = passTruthy m "only" := by
      rw [hN, dget_njBuild]; simp
    have hCas : dget N "cascade" = passTruthy m "cascade" := by
      rw [hN, dget_njBuild]; simp
    have hCE : jnContentEntries N = some ce :=
      jnContent_stable hce hC hCT hDf hP
    have hBuild : njBuild N ce = N := by
      conv_rhs => rw [hN]
      unfold njBuild
      rw [jnTitle_stable hT,
          passTruthy_stable hD (passTruthy_cases m "description"),
          dictOnly_stable hSoc, jnTags_stable hTag, jnTopics_stable hTop hCat,
          jnFacets_stable hF hMo, dictOnly_stable hDat,
          passTruthy_stable hSt (passTruthy_cases m "status"),
          passTruthy_stable hOn (passTruthy_cases m "only"),
          passTruthy_stable hCas (passTruthy_cases m "cascade")]
    simp [normalize_metadata_for_json, hCE, hBuild]

/-! ### Stability of the `transform_frontmatter` fields on their own output. -/

theorem tfTopics_stable {n m : Dict}
    (h : dget n "topics" = tfTopics m) (hc : dget n "categories" = none) :
    tfTopics n = tfTopics m := by
  cases h0 : tfTopics m <;> rw [h0] at h <;> simp [tfTopics, h, hc]

theorem tfContent_stable {n : Dict} (ct cd ca : Option Val)
    (hc : dget n "content" =
      (if (tfContentDict ct cd ca).isEmpty then none
       else some (.dict (tfContentDict ct cd ca))))
    (h1 : dget n "content_type" = none) (h2 : dget n "difficulty" = none)
    (h3 : dget n "personas" = none) :
    tfContentType n = some ct ∧ tfDifficulty n = some cd ∧ tfAudience n = some ca := by
  cases ct <;> cases cd <;> cases ca <;>
    simp only [tfContentDict, List.isEmpty_nil, List.isEmpty_cons, List.nil_append,
      List.append_nil, List.cons_append, List.singleton_append, if_true, if_false,
      Bool.false_eq_true, ite_true, ite_false] at hc <;>
    simp [tfContentType, tfDifficulty, tfAudience, tfLegacyCT, tfLegacyDiff, tfLegacyAud,
      hc, dget, h1, h2, h3]

theorem tfFacets_cases (m : Dict) :
    tfFacets m = none ∨ ∃ d, tfFacets m = some (.dict d) ∧ d ≠ [] := by
  unfold tfFacets
  set f : Dict := (match dget m "facets" with
    | some (.dict d) => d
    | _ =>
      match dget m "modality" with
      | some v => [("modality", v)]
      | none => []) with hf
  by_cases h : f.isEmpty = true
  · simp [h]
  · exact Or.inr ⟨f, by simp [h], by simpa using h⟩

theorem tfFacets_stable {n m : Dict}
    (h : dget n "facets" = tfFacets m) (hm : dget n "modality" = none) :
    tfFacets n = tfFacets m := by
  rcases tfFacets_cases m with h0 | ⟨d, h0, hne⟩ <;> rw [h0] at h ⊢
  · simp [tfFacets, h, hm]
  · simp [tfFacets, h, hne]

theorem tfTitle_cases (m : Dict) :
    tfTitle m = none ∨
      (∃ p, tfTitle m = some (.dict [("page", p)])) ∨
      (∃ p s, tfTitle m = some (.dict [("page", p), ("social", s)])) ∨
      (∃ s, tfTitle m = some (.dict [("social", s)])) := by
  unfold tfTitle
  cases h : dget m "title" with
  | none => simp
  | some v =>
    cases v <;> simp
    case dict d =>
      cases hp : dget d "page" <;> cases hs : dget d "social" <;> simp

theorem tfTitle_stable {n m : Dict}
    (h : dget n "title" = tfTitle m) : tfTitle n = tfTitle m := by
  rcases tfTitle_cases m with h0 | ⟨p, h0⟩ | ⟨p, s, h0⟩ | ⟨s, h0⟩ <;> rw [h0] at h ⊢ <;>
    simp [tfTitle, h, dget]

/-- Idempotence of the frontmatter rewriter's normalizer: re-transforming
its own output reproduces it. -/
theorem transform_frontmatter_idem (m : Dict) :
    (transform_frontmatter m).bind transform_frontmatter = transform_frontmatter m := by
  cases hct : tfContentType m with
  | none => simp [transform_frontmatter, hct]
  | some ct =>
  cases hcd : tfDifficulty m with
  | none => simp [transform_frontmatter, hct, hcd]
  | some cd =>
  cases hca : tfAudience m with
  | none => simp [transform_frontmatter, hct, hcd, hca]
  | some ca =>
    have hn : transform_frontmatter m = some (tfBuild m (tfContentDict ct cd ca)) := by
      simp [transform_frontmatter, hct, hcd, hca]
    rw [hn, Option.some_bind]
    set N := tfBuild m (tfContentDict ct cd ca) with hN
    have hD : dget N "description" = dget m "description" := by
      rw [hN, dget_tfBuild]; simp
    have hTop : dget N "topics" = tfTopics m := by rw [hN, dget_tfBuild]; simp
    have hCat : dget N "categories" = none := by rw [hN, dget_tfBuild]; simp
    have hTag : dget N "tags" = dget m "tags" := by rw [hN, dget_tfBuild]; simp
    have hC : dget N "content" =
        (if (tfContentDict ct cd ca).isEmpty then none
         else some (.dict (tfContentDict ct cd ca))) := by
      rw [hN, dget_tfBuild]; simp
    have hCT : dget N "content_type" = none := by rw [hN, dget_tfBuild]; simp
    have hDf : dget N "difficulty" = none := by rw [hN, dget_tfBuild]; simp
    have hP : dget N "personas" = none := by rw [hN, dget_tfBuild]; simp
    have hF : dget N "facets" = tfFacets m := by rw [hN, dget_tfBuild]; simp
    have hMo : dget N "modality" = none := by rw [hN, dget_tfBuild]; simp
    have hSt : dget N "status" = dget m "status" := by rw [hN, dget_tfBuild]; simp
    have hDat : dget N "dates" = dget m "dates" := by rw [hN, dget_tfBuild]; simp
    have hSoc : dget N "social" = dget m "social" := by rw [hN, dget_tfBuild]; simp
    have hOn : dget N "only" = dget m "only" := by rw [hN, dget_tfBuild]; simp
    have hTi : dget N "title" = tfTitle m := by rw [hN, dget_tfBuild]; simp
    obtain ⟨hct2, hcd2, hca2⟩ := tfContent_stable ct cd ca hC hCT hDf hP
    have hBuild : tfBuild N (tfContentDict ct cd ca) = N := by
      conv_rhs => rw [hN]
      unfold tfBuild
      rw [hD, tfTopics_stable hTop hCat, hTag, tfFacets_stable hF hMo, hSt, hDat,
          hSoc, hOn, tfTitle_stable hTi]
    simp [transform_frontmatter, hct2, hcd2, hca2, hBuild]

/-! ### Claim theorems -/

/-- Claim C1: normalization is idempotent — for every raw metadata record,
applying the normalizer twice yields the same record as applying it once,
for both `normalize_metadata_for_json` (the JSON projector) and
`transform_frontmatter` (the frontmatter rewriter); a record on which the
Python raises is `none` on both sides. -/
theorem C1_normalization_idempotent (m : Dict) :
    (normalize_metadata_for_json m).bind normalize_metadata_for_json =
      normalize_metadata_for_json m ∧
    (transform_frontmatter m).bind transform_frontmatter =
      transform_frontmatter m :=
  ⟨normalize_metadata_for_json_idem m, transform_frontmatter_idem m⟩

/-- Claim C3 counterexample: `rich_metadata.normalize_metadata` applied to
the empty record emits empty `content` and `facets` placeholder records,
so the claimed "no empty placeholder for an absent field, for every
normalizer implementation" is false. -/
theorem C3_counterexample :
    normalize_metadata [] =
      some [("content", Val.dict []), ("facets", Val.dict [])] ∧
    dget [("content", Val.dict []), ("facets", Val.dict [])] "content" =
      some (Val.dict []) ∧
    dget [("content", Val.dict []), ("facets", Val.dict [])] "facets" =
      some (Val.dict []) := by decide

/-- Claim C3 (amended): for `normalize_metadata_for_json` the invariant
holds — an emitted `content` or `facets` value is always a non-empty
record, the `topics` key is present exactly when a truthy `topics` or
`categories` source exists, and a truthy v2 `topics` wins over
`categories`.  (`rich_metadata.normalize_metadata`, by contrast, returns a
superset of its input that always contains `content` and `facets` records,
empty when no source exists — see the counterexample.) -/
theorem C3_no_empty_placeholders (m n : Dict)
    (hn : normalize_metadata_for_json m = some n) :
    (∀ v, dget n "content" = some v → ∃ e, v = .dict e ∧ e ≠ []) ∧
    (∀ v, dget n "facets" = some v → ∃ w, v = .dict [("modality", w)] ∧ truthy w = true) ∧
    ((dget n "topics").isSome ↔
      (truthy (pyGet m "topics") || truthy (pyGet m "categories")) = true) ∧
    (truthy (pyGet m "topics") = true →
      dget n "topics" = some (asList (pyGet m "topics"))) := by
  cases hce : jnContentEntries m with
  | none => rw [normalize_metadata_for_json, hce] at hn; simp at hn
  | some ce =>
    rw [normalize_metadata_for_json, hce] at hn
    simp only [Option.map_some', Option.some.injEq] at hn
    subst hn
    refine ⟨?_, ?_, ?_, ?_⟩
    · intro v hv
      rw [dget_njBuild] at hv
      simp at hv
      rcases hv with ⟨hne, rfl⟩
      exact ⟨ce, rfl, by simpa using hne⟩
    · intro v hv
      rw [dget_njBuild] at hv
      simp at hv
      rcases jnFacets_cases m with h0 | ⟨w, h0, hw⟩
      · rw [h0] at hv; simp at hv
      · rw [h0] at hv
        exact ⟨w, by simpa using hv.symm, hw⟩
    · rw [dget_njBuild]
      simp only [reduceIte]
      constructor
      · intro h
        rcases jnTopics_cases m with h0 | ⟨xs, h0, hne⟩
        · rw [h0] at h; simp at h
        · have : truthy (jnTopicsSrc m) = true := by
            by_contra hc
            rw [jnTopics] at h0
            simp [Bool.not_eq_true] at hc
            rw [hc] at h0
            simp at h0
          rw [jnTopicsSrc] at this
          by_cases ht : truthy (pyGet m "topics") = true
          · simp [ht]
          · simp [Bool.not_eq_true] at ht
            rw [ht] at this
            simp at this ⊢
            simp [ht, this]
      · intro h
        have : truthy (jnTopicsSrc m) = true := by
          rw [jnTopicsSrc]
          rcases Bool.or_eq_true_iff.mp h with ht | hc
          · simp [ht]
          · by_cases ht : truthy (pyGet m "topics") = true <;> simp [ht, hc]
        simp [jnTopics, this]
    · intro ht
      rw [dget_njBuild]
      simp only [reduceIte]
      have : jnTopicsSrc m = pyGet m "topics" := by simp [jnTopicsSrc, ht]
      simp [jnTopics, this, ht]

/-- Claim C4 counterexample: `transform_frontmatter` keeps a present-but-
falsy `status` verbatim (the claim requires both normalizers to omit it). -/
theorem C4_counterexample :
    transform_frontmatter [("status", Val.bool false)] =
      some [("status", Val.bool false)] ∧
    truthy (Val.bool false) = false ∧
    dget [("status", Val.bool false)] "status" = some (Val.bool false) := by decide

/-- Claim C4 (amended): falsy-but-present passthrough values are treated as
absent by `normalize_metadata_for_json` (shown for `status`, `description`,
`only` and `cascade`); `transform_frontmatter`, by contrast, gates on key
presence and copies a present `status` verbatim even when falsy. -/
theorem C4_falsy_passthrough (m : Dict) (v : Val) (hv : truthy v = false) :
    (∀ k, (k = "status" ∨ k = "description" ∨ k = "only" ∨ k = "cascade") →
      dget m k = some v →
      ∀ n, normalize_metadata_for_json m = some n → dget n k = none) ∧
    (dget m "status" = some v →
      ∀ n, transform_frontmatter m = some n → dget n "status" = some v) := by
  constructor
  · rintro k (rfl | rfl | rfl | rfl) hk n hn <;>
    · cases hce : jnContentEntries m with
      | none => rw [normalize_metadata_for_json, hce] at hn; simp at hn
      | some ce =>
        rw [normalize_metadata_for_json, hce] at hn
        simp only [Option.map_some', Option.some.injEq] at hn
        subst hn
        rw [dget_njBuild]
        simp [passTruthy, pyGet, hk, hv]
  · intro hst n hn
    cases hct : tfContentType m with
    | none => rw [transform_frontmatter, hct] at hn; simp at hn
    | some ct =>
    cases hcd : tfDifficulty m with
    | none => rw [transform_frontmatter, hct, hcd] at hn; simp at hn
    | some cd =>
    cases hca : tfAudience m with
    | none => rw [transform_frontmatter, hct, hcd, hca] at hn; simp at hn
    | some ca =>
      rw [transform_frontmatter, hct, hcd, hca] at hn
      simp only [Option.bind_eq_bind, Option.some_bind, Option.pure_def,
        Option.some.injEq] at hn
      subst hn
      rw [dget_tfBuild]
      simp [hst]

/-- Mapping a list of string personas through a persona table never raises
and applies the table elementwise (unmapped tokens fall back to
themselves). -/
theorem mapM_pyMapGet (tbl : List (String × String)) (ss : List String) :
    (ss.map Val.str).mapM (pyMapGet tbl) =
      some (ss.map (fun s => Val.str ((tbl.lookup s).getD s))) := by
  induction ss with
  | nil => rfl
  | cons s rest ih =>
    simp only [List.map_cons, List.mapM_cons, ih]
    cases h : tbl.lookup s <;> simp [pyMapGet, h]

theorem walkNested_nil (v : Val) : walkNested v [] = v := by
  cases v <;> rfl

theorem walkNested_dict_cons (d : Dict) (k : String) (ks : List String) :
    walkNested (.dict d) (k :: ks) =
      (match dget d k with
       | some v => walkNested v ks
       | none => .null) := rfl

/-- Two-segment nested lookup through known dict entries. -/
theorem get_nested_of_dget {m d : Dict} {k1 k2 : String} {v : Val}
    (h1 : dget m k1 = some (.dict d)) (h2 : dget d k2 = some v) :
    get_nested_value m [k1, k2] = v := by
  have e1 : get_nested_value m [k1, k2] = walkNested (.dict d) [k2] := by
    rw [get_nested_value, walkNested_dict_cons, h1]
  rw [e1, walkNested_dict_cons, h2]
  exact walkNested_nil v

/-- Nested lookup when the first segment is missing. -/
theorem get_nested_none_fst {m : Dict} {k1 k2 : String}
    (h1 : dget m k1 = none) : get_nested_value m [k1, k2] = .null := by
  rw [get_nested_value, walkNested_dict_cons, h1]

/-- Nested lookup when the second segment is missing. -/
theorem get_nested_none_snd {m d : Dict} {k1 k2 : String}
    (h1 : dget m k1 = some (.dict d)) (h2 : dget d k2 = none) :
    get_nested_value m [k1, k2] = .null := by
  have e1 : get_nested_value m [k1, k2] = walkNested (.dict d) [k2] := by
    rw [get_nested_value, walkNested_dict_cons, h1]
  rw [e1, walkNested_dict_cons, h2]

/-- `audience` lookup in the `content` record built by
`normalize_metadata_for_json`. -/
theorem dget_jn_audience (c1 c2 : Bool) (x y a : Val) :
    dget ((if c1 = true then [("type", x)] else []) ++
          (if c2 = true then [("difficulty", y)] else []) ++ [("audience", a)])
      "audience" = some a := by
  cases c1 <;> cases c2 <;> simp [dget_append, dget]

/-- The `content` record of `normalize_metadata_for_json` is non-empty
whenever an audience entry is present. -/
theorem jn_ce_isEmpty (c1 c2 : Bool) (x y a : Val) :
    ((if c1 = true then [("type", x)] else []) ++
     (if c2 = true then [("difficulty", y)] else []) ++
     [("audience", a)]).isEmpty = false := by
  cases c1 <;> cases c2 <;> simp

/-- `audience` lookup in the `content` record built by
`transform_frontmatter`. -/
theorem dget_tf_audience (ct cd : Option Val) (a : Val) :
    dget (tfContentDict ct cd (some a)) "audience" = some a := by
  cases ct <;> cases cd <;> simp [tfContentDict, dget_append, dget]

/-- The `content` record of `transform_frontmatter` is non-empty whenever
an audience is present. -/
theorem tfContentDict_ne_nil (ct cd : Option Val) (a : Val) :
    (tfContentDict ct cd (some a)).isEmpty = false := by
  cases ct <;> cases cd <;> simp [tfContentDict]

/-- Nested `content.audience` lookup in a `normalize_metadata_for_json`
output. -/
theorem get_nested_njBuild_audience (m : Dict) (ce : Dict) (a : Val)
    (hce : dget ce "audience" = some a) (hne : ce.isEmpty = false) :
    get_nested_value (njBuild m ce) ["content", "audience"] = a := by
  refine get_nested_of_dget ?_ hce
  rw [dget_njBuild]
  simp [hne]

/-- Nested `content.audience` lookup in a `transform_frontmatter` output. -/
theorem get_nested_tfBuild_audience (m : Dict) (D : Dict) (a : Val)
    (hd : dget D "audience" = some a) (hne : D.isEmpty = false) :
    get_nested_value (tfBuild m D) ["content", "audience"] = a := by
  refine get_nested_of_dget ?_ hd
  rw [dget_tfBuild]
  simp [hne]

/-- Personas resolution of `normalize_metadata_for_json` on a list of
string personas. -/
theorem caVal_personas_list (m : Dict) (ss : List String)
    (hfalsy : truthy (get_nested_value m ["content", "audience"]) = false)
    (hps : dget m "personas" = some (.list (ss.map Val.str))) (hne : ss ≠ []) :
    caVal m =
      some (.list (ss.map (fun s => Val.str ((audience_map.lookup s).getD s)))) := by
  have htr : truthy (Val.list (ss.map Val.str)) = true := by
    simpa [truthy] using hne
  simp only [caVal, pyGet]
  rw [hfalsy, hps]
  simp only [Option.getD_some, htr, Bool.not_false, Bool.true_and]
  rw [if_true]
  rw [mapM_pyMapGet]
  rfl

/-- Personas resolution of `normalize_metadata_for_json` on a scalar
string persona: wrapped, not mapped. -/
theorem caVal_personas_scalar (m : Dict) (s : String)
    (hfalsy : truthy (get_nested_value m ["content", "audience"]) = false)
    (hps : dget m "personas" = some (.str s)) (hne : s ≠ "") :
    caVal m = some (.list [.str s]) := by
  have htr : truthy (Val.str s) = true := by simp [truthy, hne]
  simp only [caVal, pyGet]
  rw [hfalsy, hps]
  simp only [Option.getD_some, htr, Bool.not_false, Bool.true_and]
  rw [if_true]

/-- Personas resolution of `transform_frontmatter` on a list of string
personas. -/
theorem tfLegacyAud_list (m : Dict) (ss : List String)
    (hps : dget m "personas" = some (.list (ss.map Val.str))) :
    tfLegacyAud m =
      some (some (.list (ss.map (fun s => Val.str ((PERSONA_MAP.lookup s).getD s))))) := by
  rw [tfLegacyAud.eq_def, hps]
  simp only [mapM_pyMapGet, Option.map_some']

/-- Personas resolution of `transform_frontmatter` on a scalar string
persona: mapped, then wrapped. -/
theorem tfLegacyAud_scalar (m : Dict) (s : String)
    (hps : dget m "personas" = some (.str s)) :
    tfLegacyAud m = some (some (.list [.str ((PERSONA_MAP.lookup s).getD s)])) := by
  rw [tfLegacyAud.eq_def, hps]
  cases h : PERSONA_MAP.lookup s <;> simp [pyMapGet, h]

/-- Claim C5 counterexample: a scalar `personas` value passes through
`normalize_metadata_for_json` as an unmapped singleton, although the claim
requires scalars to be mapped through the persona table as well. -/
theorem C5_counterexample :
    normalize_metadata_for_json [("personas", Val.str "mle-focused")] =
      some [("content", Val.dict [("audience", Val.list [Val.str "mle-focused"])])] ∧
    Val.list [Val.str "mle-focused"] ≠
      Val.list [Val.str "Machine Learning Engineer"] := by decide

/-- Claim C5 (amended): `normalize_metadata_for_json` maps a personas
*list* elementwise through the four-entry `audience_map` (unmapped string
tokens passing verbatim) but wraps a scalar personas value as an unmapped
singleton; `transform_frontmatter` instead maps through the eight-entry
`PERSONA_MAP` (the four legacy tokens plus four plural normalizations) and
maps scalar personas too.  The final conjuncts pin the two tables apart. -/
theorem C5_persona_mapping :
    (∀ m n (ss : List String),
      truthy (get_nested_value m ["content", "audience"]) = false →
      dget m "personas" = some (.list (ss.map Val.str)) → ss ≠ [] →
      normalize_metadata_for_json m = some n →
      get_nested_value n ["content", "audience"] =
        .list (ss.map (fun s => Val.str ((audience_map.lookup s).getD s)))) ∧
    (∀ m n (s : String),
      truthy (get_nested_value m ["content", "audience"]) = false →
      dget m "personas" = some (.str s) → s ≠ "" →
      normalize_metadata_for_json m = some n →
      get_nested_value n ["content", "audience"] = .list [.str s]) ∧
    (∀ m n (ss : List String),
      dget m "content" = none →
      dget m "personas" = some (.list (ss.map Val.str)) →
      transform_frontmatter m = some n →
      get_nested_value n ["content", "audience"] =
        .list (ss.map (fun s => Val.str ((PERSONA_MAP.lookup s).getD s)))) ∧
    (∀ m n (s : String),
      dget m "content" = none →
      dget m "personas" = some (.str s) →
      transform_frontmatter m = some n →
      get_nested_value n ["content", "audience"] =
        .list [.str ((PERSONA_MAP.lookup s).getD s)]) ∧
    PERSONA_MAP.lookup "Data Scientists" = some "Data Scientist" ∧
    audience_map.lookup "Data Scientists" = none ∧
    audience_map.length = 4 ∧ PERSONA_MAP.length = 8 := by
  refine ⟨?_, ?_, ?_, ?_, by decide, by decide, by decide, by decide⟩
  · intro m n ss hfalsy hps hne hn
    have hmapped := caVal_personas_list m ss hfalsy hps hne
    have hnauds : truthy (Val.list
        (ss.map (fun s => Val.str ((audience_map.lookup s).getD s)))) = true := by
      simpa [truthy] using hne
    have hce : jnContentEntries m =
        some ((if truthy (ctVal m) = true then [("type", ctVal m)] else []) ++
              (if truthy (cdVal m) = true then [("difficulty", cdVal m)] else []) ++
              [("audience",
                .list (ss.map (fun s => Val.str ((audience_map.lookup s).getD s))))]) := by
      rw [jnContentEntries, hmapped]
      simp [hnauds, asList]
    rw [normalize_metadata_for_json, hce] at hn
    simp only [Option.map_some', Option.some.injEq] at hn
    subst hn
    exact get_nested_njBuild_audience m _ _ (dget_jn_audience _ _ _ _ _)
      (jn_ce_isEmpty _ _ _ _ _)
  · intro m n s hfalsy hps hne hn
    have hca := caVal_personas_scalar m s hfalsy hps hne
    have hce : jnContentEntries m =
        some ((if truthy (ctVal m) = true then [("type", ctVal m)] else []) ++
              (if truthy (cdVal m) = true then [("difficulty", cdVal m)] else []) ++
              [("audience", .list [.str s])]) := by
      rw [jnContentEntries, hca]
      simp [truthy, asList]
    rw [normalize_metadata_for_json, hce] at hn
    simp only [Option.map_some', Option.some.injEq] at hn
    subst hn
    exact get_nested_njBuild_audience m _ _ (dget_jn_audience _ _ _ _ _)
      (jn_ce_isEmpty _ _ _ _ _)
  · intro m n ss hc hps hn
    have hca : tfAudience m =
        some (some (.list (ss.map (fun s => Val.str ((PERSONA_MAP.lookup s).getD s))))) := by
      rw [tfAudience.eq_def, hc]
      exact tfLegacyAud_list m ss hps
    cases hct : tfContentType m with
    | none => rw [transform_frontmatter, hct] at hn; simp at hn
    | some ct =>
    cases hcd : tfDifficulty m with
    | none => rw [transform_frontmatter, hct, hcd] at hn; simp at hn
    | some cd =>
      rw [transform_frontmatter, hct, hcd, hca] at hn
      simp only [Option.bind_eq_bind, Option.some_bind, Option.pure_def,
        Option.some.injEq] at hn
      subst hn
      exact get_nested_tfBuild_audience m _ _ (dget_tf_audience _ _ _)
        (tfContentDict_ne_nil _ _ _)
  · intro m n s hc hps hn
    have hca : tfAudience m =
        some (some (.list [.str ((PERSONA_MAP.lookup s).getD s)])) := by
      rw [tfAudience.eq_def, hc]
      exact tfLegacyAud_scalar m s hps
    cases hct : tfContentType m with
    | none => rw [transform_frontmatter, hct] at hn; simp at hn
    | some ct =>
    cases hcd : tfDifficulty m with
    | none => rw [transform_frontmatter, hct, hcd] at hn; simp at hn
    | some cd =>
      rw [transform_frontmatter, hct, hcd, hca] at hn
      simp only [Option.bind_eq_bind, Option.some_bind, Option.pure_def,
        Option.some.injEq] at hn
      subst hn
      exact get_nested_tfBuild_audience m _ _ (dget_tf_audience _ _ _)
        (tfContentDict_ne_nil _ _ _)

/-- Claim C6: frontmatter extraction tries the three closing-delimiter
variants in the fixed priority order — the `\n---(` corruption first, then
`\n---` followed by `#` or a word character, then the well-formed
`\n---\n` — the first successful (leftmost) match winning; on the
document `---\nfoo: bar\n---(content here` it extracts `{foo: bar}` with
body `(content here` unchanged. -/
theorem C6_extract_priority :
    (∀ (content : List Char) (s : Nat), ("---".data.isPrefixOf content) = true →
      findFirst matchParen (content.drop 3) = some s →
      extract_split content =
        some ((content.take (s + 3)).drop 4, content.drop (s + 7))) ∧
    (∀ (content : List Char) (s : Nat), ("---".data.isPrefixOf content) = true →
      findFirst matchParen (content.drop 3) = none →
      findFirst matchHash (content.drop 3) = some s →
      extract_split content =
        some ((content.take (s + 3)).drop 4, content.drop (s + 7))) ∧
    (∀ (content : List Char) (s : Nat), ("---".data.isPrefixOf content) = true →
      findFirst matchParen (content.drop 3) = none →
      findFirst matchHash (content.drop 3) = none →
      findFirst matchProper (content.drop 3) = some s →
      extract_split content =
        some ((content.take (s + 3)).drop 4, content.drop (s + 8))) ∧
    extract_frontmatter ("---\nfoo: bar\n---(content here".data) =
      (some [("foo", Val.str "bar")], "foo: bar".data, "(content here".data) := by
  refine ⟨?_, ?_, ?_, by decide⟩
  · intro content s h0 h1
    simp [extract_split, h0, h1]
  · intro content s h0 h1 h2
    simp [extract_split, h0, h1, h2]
  · intro content s h0 h1 h2 h3
    simp [extract_split, h0, h1, h2, h3]

/-- Claim C6 witness: the first (highest-priority) variant applied to the
corrupted concrete document. -/
theorem C6_extract_priority_witness :
    extract_split ("---\nfoo: bar\n---(content here".data) =
      some ("foo: bar".data, "(content here".data) := by
  have h := C6_extract_priority.1 ("---\nfoo: bar\n---(content here".data) 9
    (by decide) (by decide)
  rw [h]
  decide

/-- Claim C7: for a non-empty content string and positive
`content_max_length`, when the string exceeds the limit the projected
`content` is the first `content_max_length` characters plus the 3-character
`"..."` marker (so its length is `content_max_length + 3`), while
`content_length` and `word_count` come from the original untruncated
string; a limit of 0 disables truncation. -/
theorem C7_content_truncation (data content_data : Dict) (s : String) (L : Nat)
    (hs : dget content_data "content" = some (.str s)) (hne : s ≠ "") :
    (0 < L → L < s.data.length →
      ∃ d, add_primary_content data content_data L = some d ∧
        dget d "content" = some (.str (String.mk (s.data.take L ++ ['.', '.', '.']))) ∧
        (String.mk (s.data.take L ++ ['.', '.', '.'])).data.length = L + 3 ∧
        dget d "content_length" = some (.int s.data.length) ∧
        dget d "word_count" = some (.int (countWords s.data false))) ∧
    (L = 0 →
      ∃ d, add_primary_content data content_data L = some d ∧
        dget d "content" = some (.str s) ∧
        dget d "content_length" = some (.int s.data.length) ∧
        dget d "word_count" = some (.int (countWords s.data false))) := by
  have hpg : pyGet content_data "content" = .str s := by simp [pyGet, hs]
  have htr : truthy (Val.str s) = true := by simp [truthy, hne]
  constructor
  · intro hL hlen
    have happ : add_primary_content data content_data L =
        some (dset (dset (dset (dset data "content"
            (.str (String.mk (s.data.take L ++ ['.', '.', '.'])))) "format"
            (match dget content_data "format" with
             | some v => v
             | none => .str "text")) "content_length" (.int s.data.length))
          "word_count" (.int (countWords s.data false))) := by
      simp only [add_primary_content, hpg, htr]
      rw [if_neg (by simp), if_pos ⟨hL, hlen⟩]
    refine ⟨_, happ, ?_, ?_, ?_, ?_⟩
    · rw [dget_dset_ne _ _ _ _ (by decide), dget_dset_ne _ _ _ _ (by decide),
          dget_dset_ne _ _ _ _ (by decide), dget_dset_self]
    · simp only [List.length_append, List.length_take, List.length_cons,
        List.length_nil]
      omega
    · rw [dget_dset_ne _ _ _ _ (by decide), dget_dset_self]
    · rw [dget_dset_self]
  · intro hL0
    subst hL0
    have happ : add_primary_content data content_data 0 =
        some (dset (dset (dset (dset data "content" (.str (String.mk s.data)))
            "format"
            (match dget content_data "format" with
             | some v => v
             | none => .str "text")) "content_length" (.int s.data.length))
          "word_count" (.int (countWords s.data false))) := by
      simp only [add_primary_content, hpg, htr]
      rw [if_neg (by simp), if_neg (by simp)]
    refine ⟨_, happ, ?_, ?_, ?_⟩
    · rw [dget_dset_ne _ _ _ _ (by decide), dget_dset_ne _ _ _ _ (by decide),
          dget_dset_ne _ _ _ _ (by decide), dget_dset_self]
    · rw [dget_dset_ne _ _ _ _ (by decide), dget_dset_self]
    · rw [dget_dset_self]

/-- Claim C7 witness: a 20-character string truncated at limit 10 projects
to 13 characters while `content_length` stays 20. -/
theorem C7_content_truncation_witness :
    ∃ d, add_primary_content [] [("content", .str "aaaa bbbb cccc dddd.")] 10 = some d ∧
      dget d "content" = some (.str (String.mk
        ("aaaa bbbb cccc dddd.".data.take 10 ++ ['.', '.', '.']))) ∧
      (String.mk ("aaaa bbbb cccc dddd.".data.take 10 ++
        ['.', '.', '.'])).data.length = 10 + 3 ∧
      dget d "content_length" = some (.int "aaaa bbbb cccc dddd.".data.length) ∧
      dget d "word_count" = some (.int (countWords "aaaa bbbb cccc dddd.".data false)) :=
  (C7_content_truncation [] [("content", .str "aaaa bbbb cccc dddd.")]
    "aaaa bbbb cccc dddd." 10 (by decide) (by decide)).1 (by decide) (by decide)

/-- A successful `isPrefixOf` exhibits the suffix. -/
theorem prefix_exists {p l : List Char} (h : p.isPrefixOf l = true) :
    ∃ t, l = p ++ t := by
  induction p generalizing l with
  | nil => exact ⟨l, rfl⟩
  | cons a as ih =>
    cases l with
    | nil => simp [List.isPrefixOf] at h
    | cons b bs =>
      simp only [List.isPrefixOf, Bool.and_eq_true, beq_iff_eq] at h
      obtain ⟨rfl, h2⟩ := h
      obtain ⟨t, rfl⟩ := ih h2
      exact ⟨t, rfl⟩

/-- A found position satisfies the pattern predicate on the suffix. -/
theorem findFirst_some {p : List Char → Bool} :
    ∀ {l : List Char} {s : Nat}, findFirst p l = some s → p (l.drop s) = true := by
  intro l
  induction l with
  | nil =>
    intro s h
    cases hp : p [] <;> simp [findFirst, hp] at h
    subst h
    simpa using hp
  | cons c rest ih =>
    intro s h
    cases hp : p (c :: rest) with
    | true =>
      simp [findFirst, hp] at h
      subst h
      simpa using hp
    | false =>
      simp only [findFirst, hp, Bool.false_eq_true, if_false, Option.map_eq_some'] at h
      obtain ⟨s2, hs2, rfl⟩ := h
      simpa [List.drop] using ih hs2

/-- Claim C10 counterexample: on `---\n---\nbody` (the well-formed closing
match starting at the opening delimiter's own newline) the reconstruction
inserts an extra newline, so the claim as stated is false. -/
theorem C10_counterexample :
    extract_split ("---\n---\nbody".data) = some ([], "body".data) ∧
    "---\n".data ++ ([] : List Char) ++ "\n---\n".data ++ "body".data ≠
      "---\n---\nbody".data := by decide

/-- Claim C10 (amended): well-formed extraction is lossless — when the
document starts with `---\n`, neither corrupted variant matches, and the
well-formed `\n---\n` first matches at an offset of at least 1 in the
post-`---` text (i.e. its newline is not the opening delimiter's own
newline), the returned components reconstruct the input exactly:
`"---\n" ++ raw ++ "\n---\n" ++ body = content`. -/
theorem C10_wellformed_lossless (content : List Char) (s : Nat)
    (hstart : ("---\n".data.isPrefixOf content) = true)
    (hA : findFirst matchParen (content.drop 3) = none)
    (hB : findFirst matchHash (content.drop 3) = none)
    (hC : findFirst matchProper (content.drop 3) = some s)
    (hs : 1 ≤ s) :
    extract_split content =
      some ((content.take (s + 3)).drop 4, content.drop (s + 8)) ∧
    "---\n".data ++ ((content.take (s + 3)).drop 4) ++ "\n---\n".data ++
      content.drop (s + 8) = content := by
  obtain ⟨t, ht⟩ := prefix_exists hstart
  have e4 : "---\n".data = ['-', '-', '-', '\n'] := rfl
  constructor
  · have h3 : ("---".data.isPrefixOf content) = true := by
      rw [ht, e4]
      rfl
    simp [extract_split, h3, hA, hB, hC]
  · have hmid0 : matchProper (content.drop (3 + s)) = true := by
      have := findFirst_some hC
      rwa [List.drop_drop] at this
    rw [matchProper] at hmid0
    obtain ⟨t2, ht2⟩ := prefix_exists hmid0
    have ht2len : "\n---\n".data.length = 5 := rfl
    have hdrop8 : content.drop (s + 8) = t2 := by
      have : (content.drop (3 + s)).drop 5 = t2 := by
        rw [ht2]
        rw [show (['\n', '-', '-', '-', '\n'] ++ t2).drop 5 = t2 from rfl]
      rw [List.drop_drop] at this
      rw [show (3 + s + 5 : Nat) = s + 8 by omega] at this
      exact this
    have htake4 : content.take 4 = "---\n".data := by
      rw [ht]
      rw [show ("---\n".data ++ t).take 4 = ("---\n".data).take 4 by
        rw [List.take_append_of_le_length (by rw [e4]; simp)]]
      rfl
    have hsplit : content.take (s + 3) = content.take 4 ++ (content.take (s + 3)).drop 4 := by
      have h1 : (content.take (s + 3)).take 4 = content.take 4 := by
        rw [List.take_take]
        rw [show min 4 (s + 3) = 4 by omega]
      rw [← h1]
      exact (List.take_append_drop 4 (content.take (s + 3))).symm
    have hmain : content = content.take (s + 3) ++ content.drop (s + 3) :=
      (List.take_append_drop (s + 3) content).symm
    rw [show (3 : Nat) + s = s + 3 by omega] at ht2
    calc "---\n".data ++ ((content.take (s + 3)).drop 4) ++ "\n---\n".data ++
          content.drop (s + 8)
        = (content.take 4 ++ (content.take (s + 3)).drop 4) ++
          ("\n---\n".data ++ t2) := by rw [htake4, hdrop8]; simp [List.append_assoc]
      _ = content.take (s + 3) ++ content.drop (s + 3) := by rw [← hsplit, ← ht2]
      _ = content := hmain.symm

/-- Claim C3 witness: the amended invariant applied to a concrete record
with both `categories` and `topics`. -/
theorem C3_no_empty_placeholders_witness :
    (∀ v, dget [("topics", Val.list [Val.str "B"])] "content" = some v →
      ∃ e, v = .dict e ∧ e ≠ []) ∧
    (∀ v, dget [("topics", Val.list [Val.str "B"])] "facets" = some v →
      ∃ w, v = .dict [("modality", w)] ∧ truthy w = true) ∧
    ((dget [("topics", Val.list [Val.str "B"])] "topics").isSome ↔
      (truthy (pyGet [("categories", Val.list [Val.str "A"]),
                      ("topics", Val.list [Val.str "B"])] "topics") ||
       truthy (pyGet [("categories", Val.list [Val.str "A"]),
                      ("topics", Val.list [Val.str "B"])] "categories")) = true) ∧
    (truthy (pyGet [("categories", Val.list [Val.str "A"]),
                    ("topics", Val.list [Val.str "B"])] "topics") = true →
      dget [("topics", Val.list [Val.str "B"])] "topics" =
        some (asList (pyGet [("categories", Val.list [Val.str "A"]),
                             ("topics", Val.list [Val.str "B"])] "topics"))) :=
  C3_no_empty_placeholders
    [("categories", Val.list [Val.str "A"]), ("topics", Val.list [Val.str "B"])]
    [("topics", Val.list [Val.str "B"])] (by decide)

/-- Claim C4 witness: the amended statement applied to the concrete record
`{status: false}` — the JSON normalizer omits the key. -/
theorem C4_falsy_passthrough_witness : dget ([] : Dict) "status" = none :=
  (C4_falsy_passthrough [("status", Val.bool false)] (Val.bool false)
    (by decide)).1 "status" (Or.inl rfl) (by decide) [] (by decide)

/-- Claim C5 witness: the amended list-personas mapping applied to the
concrete record `{personas: [mle-focused, unknown-x]}`. -/
theorem C5_persona_mapping_witness :
    get_nested_value
      [("content", Val.dict [("audience",
        Val.list [Val.str "Machine Learning Engineer", Val.str "unknown-x"])])]
      ["content", "audience"] =
      .list ((["mle-focused", "unknown-x"] : List String).map
        (fun s => Val.str ((audience_map.lookup s).getD s))) :=
  C5_persona_mapping.1
    [("personas", Val.list [Val.str "mle-focused", Val.str "unknown-x"])]
    [("content", Val.dict [("audience",
      Val.list [Val.str "Machine Learning Engineer", Val.str "unknown-x"])])]
    ["mle-focused", "unknown-x"] (by decide) (by decide) (by decide) (by decide)

/-- Claim C10 witness: lossless reconstruction of the well-formed concrete
document `---\na: b\n---\nrest`. -/
theorem C10_wellformed_lossless_witness :
    extract_split ("---\na: b\n---\nrest".data) =
      some ("a: b".data, "rest".data) ∧
    "---\n".data ++ "a: b".data ++ "\n---\n".data ++ "rest".data =
      "---\na: b\n---\nrest".data := by
  have h := C10_wellformed_lossless ("---\na: b\n---\nrest".data) 5
    (by decide) (by decide) (by decide) (by decide) (by decide)
  have e1 : (("---\na: b\n---\nrest".data).take (5 + 3)).drop 4 = "a: b".data := by
    decide
  have e2 : ("---\na: b\n---\nrest".data).drop (5 + 8) = "rest".data := by decide
  constructor
  · rw [h.1, e1, e2]
  · have h2 := h.2
    rw [e1, e2] at h2
    exact h2

/-- Claim C8: page-title construction — with base title X (from canonical
`title.page`, else the page-context title; none when both are falsy) the
result is `"X | NVIDIA"` when only the page title was collected,
`"X - Y | NVIDIA"` when the page title and a distinct site name Y were
collected, and `"X: P - Y | NVIDIA"` when the page title, a distinct
immediate-parent section title P and a distinct site name Y were all
collected. -/
theorem C8_build_page_title :
    (∀ m ctx, truthy (get_nested_value m ["title", "page"]) = false →
      truthy (ctx.title.getD (.str "")) = false →
      build_page_title m ctx = none) ∧
    (∀ m ctx (X : String),
      (if truthy (get_nested_value m ["title", "page"]) = true
       then get_nested_value m ["title", "page"]
       else ctx.title.getD (.str "")) = .str X →
      X ≠ "" → ctx.parents = [] → ctx.docstitle = none →
      build_page_title m ctx = some (X ++ " | NVIDIA")) ∧
    (∀ m ctx (X Y : String),
      (if truthy (get_nested_value m ["title", "page"]) = true
       then get_nested_value m ["title", "page"]
       else ctx.title.getD (.str "")) = .str X →
      X ≠ "" → ctx.parents = [] →
      ctx.docstitle = some (.str Y) → Y ≠ "" → Y ≠ X →
      build_page_title m ctx = some (X ++ " - " ++ Y ++ " | NVIDIA")) ∧
    (∀ m ctx (X P Y : String) (pd : Dict),
      (if truthy (get_nested_value m ["title", "page"]) = true
       then get_nested_value m ["title", "page"]
       else ctx.title.getD (.str "")) = .str X →
      X ≠ "" →
      ctx.parents.getLast? = some pd →
      dget pd "title" = some (.str P) → P ≠ X →
      ctx.docstitle = some (.str Y) → Y ≠ "" → Y ≠ X →
      build_page_title m ctx = some (X ++ ": " ++ P ++ " - " ++ Y ++ " | NVIDIA")) := by
  refine ⟨?_, ?_, ?_, ?_⟩
  · intro m ctx h1 h2
    simp [build_page_title, h1, h2]
  · intro m ctx X hbase hX hpar hsite
    simp only [build_page_title]
    rw [hbase, hpar, hsite]
    simp [truthy, hX, pyStr]
  · intro m ctx X Y hbase hX hpar hsite hY hYX
    simp only [build_page_title]
    rw [hbase, hpar, hsite]
    simp [truthy, hX, hY, hYX, pyStr]
  · intro m ctx X P Y pd hbase hX hlast hpt hPX hsite hY hYX
    have hne : ctx.parents.isEmpty = false := by
      cases hp : ctx.parents with
      | nil => rw [hp] at hlast; simp at hlast
      | cons a l => simp
    simp only [build_page_title]
    rw [hbase, hsite]
    simp [truthy, hX, hY, hYX, hne, hlast, hpt, hPX, pyStr]

/-- Claim C8 witness: the three-component template on a concrete record and
context. -/
theorem C8_build_page_title_witness :
    build_page_title [("title", Val.dict [("page", Val.str "Install")])]
      ⟨some (Val.str "ctx"), [[("title", Val.str "Setup")]],
       some (Val.str "NeMo Curator"), none⟩ =
      some ("Install" ++ ": " ++ "Setup" ++ " - " ++ "NeMo Curator" ++ " | NVIDIA") :=
  C8_build_page_title.2.2.2
    [("title", Val.dict [("page", Val.str "Install")])]
    ⟨some (Val.str "ctx"), [[("title", Val.str "Setup")]],
     some (Val.str "NeMo Curator"), none⟩
    "Install" "Setup" "NeMo Curator" [("title", Val.str "Setup")]
    (by decide) (by decide) (by decide) (by decide) (by decide) (by decide)
    (by decide) (by decide)

/-! ### Preservation lemmas for the JSON-LD builder steps -/

theorem jldTitle_pres (m : Dict) (ctx : PageContext) (d : Dict) (k : String)
    (h1 : "headline" ≠ k) (h2 : "name" ≠ k) :
    dget (jldTitle m ctx d) k = dget d k := by
  unfold jldTitle
  dsimp only
  repeat' split
  all_goals
    first
    | rw [dget_dset_ne _ _ _ _ h2, dget_dset_ne _ _ _ _ h1]
    | rfl

theorem jldDescription_pres (m : Dict) (d : Dict) (k : String)
    (h : "description" ≠ k) : dget (jldDescription m d) k = dget d k := by
  unfold jldDescription
  split
  · rw [dget_dset_ne _ _ _ _ h]
  · rfl

theorem jldKeywords_pres (m : Dict) (d : Dict) (k : String)
    (h : "keywords" ≠ k) : dget (jldKeywords m d) k = dget d k := by
  unfold jldKeywords
  split
  · rw [dget_dset_ne _ _ _ _ h]
  · rfl

theorem jldType_total (m : Dict) (d : Dict)
    (h : truthy (ctVal m) = true → ∃ s, ctVal m = Val.str s) :
    ∃ d2, jldType m d = some d2 := by
  unfold jldType
  by_cases ht : truthy (ctVal m) = true
  · obtain ⟨s, hs⟩ := h ht
    rw [if_pos ht, hs]
    exact ⟨_, rfl⟩
  · rw [if_neg ht]
    exact ⟨d, rfl⟩

theorem jldType_pres {m d d2 : Dict} {k : String} (h : jldType m d = some d2)
    (hk : "@type" ≠ k) : dget d2 k = dget d k := by
  unfold jldType at h
  split at h
  · split at h
    · simp only [Option.some.injEq] at h
      subst h
      split
      · rw [dget_dset_ne _ _ _ _ hk]
      · rfl
    · simp at h
  · simp only [Option.some.injEq] at h
    subst h
    rfl

theorem jldProficiency_total (m : Dict) (d : Dict)
    (h : truthy (cdVal m) = true → ∃ s, cdVal m = Val.str s) :
    ∃ d2, jldProficiency m d = some d2 := by
  unfold jldProficiency
  by_cases ht : truthy (cdVal m) = true
  · obtain ⟨s, hs⟩ := h ht
    rw [if_pos ht, hs]
    exact ⟨_, rfl⟩
  · rw [if_neg ht]
    exact ⟨d, rfl⟩

theorem jldProficiency_pres {m d d2 : Dict} {k : String}
    (h : jldProficiency m d = some d2) (hk : "proficiencyLevel" ≠ k) :
    dget d2 k = dget d k := by
  unfold jldProficiency at h
  split at h
  · split at h
    · simp only [Option.some.injEq] at h
      subst h
      split
      · rw [dget_dset_ne _ _ _ _ hk]
      · rfl
    · simp at h
  · simp only [Option.some.injEq] at h
    subst h
    rfl

theorem jldAudience_pres (m : Dict) (d : Dict) (k : String)
    (h : "audience" ≠ k) : dget (jldAudience m d) k = dget d k := by
  unfold jldAudience
  dsimp only
  split
  · split
    · rw [dget_dset_ne _ _ _ _ h]
    · rfl
  · rfl

theorem jldUrl_pres (ctx : PageContext) (d : Dict) (k : String)
    (h : "url" ≠ k) : dget (jldUrl ctx d) k = dget d k := by
  unfold jldUrl
  split
  · rw [dget_dset_ne _ _ _ _ h]
  · rfl

theorem jldPublisher_pres (d : Dict) (k : String) (h : "publisher" ≠ k) :
    dget (jldPublisher d) k = dget d k := by
  unfold jldPublisher
  rw [dget_dset_ne _ _ _ _ h]

theorem jldPublisher_self (d : Dict) :
    dget (jldPublisher d) "publisher" = some publisherVal :=
  dget_dset_self d "publisher" publisherVal

theorem jldAbout_pres (m : Dict) (d : Dict) (k : String)
    (h : "about" ≠ k) : dget (jldAbout m d) k = dget d k := by
  unfold jldAbout
  split
  · split
    · split
      · rw [dget_dset_ne _ _ _ _ h]
      · rfl
    · rfl
  · rfl

theorem jldModality_pres (m : Dict) (d : Dict) (k : String)
    (h : "additionalProperty" ≠ k) : dget (jldModality m d) k = dget d k := by
  unfold jldModality
  split
  · rw [dget_dset_ne _ _ _ _ h]
  · rfl

/-- Claim C9 counterexample: `build_json_ld` raises (modelled `none`) on a
truthy non-string `content.type` — `5 .lower()` is an `AttributeError` —
so "never returns absent, for every metadata dict" is false as stated. -/
theorem C9_counterexample :
    build_json_ld [("content", Val.dict [("type", Val.int 5)])]
      ⟨none, [], none, none⟩ = none := by decide

/-- Claim C9 (amended): for every metadata dict whose resolved content
type and difficulty are strings whenever truthy, and every page context,
`build_json_ld` returns a `<script type="application/ld+json">` element
wrapping the serialized structured data, which always contains
`"@context": "https://schema.org"` and the hardcoded NVIDIA Corporation
publisher block, regardless of which optional fields are present. -/
theorem C9_json_ld_total (m : Dict) (ctx : PageContext)
    (h1 : truthy (ctVal m) = true → ∃ s, ctVal m = Val.str s)
    (h2 : truthy (cdVal m) = true → ∃ s, cdVal m = Val.str s) :
    ∃ d, build_json_ld_data m ctx = some d ∧
      dget d "@context" = some (.str "https://schema.org") ∧
      dget d "publisher" = some publisherVal ∧
      build_json_ld m ctx =
        some ("<script type=\"application/ld+json\">\n" ++ jsonDumps (.dict d) ++
          "\n</script>") := by
  obtain ⟨d4, hd4⟩ :=
    jldType_total m (jldKeywords m (jldDescription m (jldTitle m ctx jld0))) h1
  obtain ⟨d5, hd5⟩ := jldProficiency_total m d4 h2
  have hbuild : build_json_ld_data m ctx =
      some (jldModality m (jldAbout m (jldPublisher (jldUrl ctx (jldAudience m d5))))) := by
    rw [build_json_ld_data, hd4]
    simp only [Option.bind_eq_bind, Option.some_bind, hd5, Option.pure_def]
  refine ⟨_, hbuild, ?_, ?_, ?_⟩
  · rw [jldModality_pres _ _ _ (by decide), jldAbout_pres _ _ _ (by decide),
        jldPublisher_pres _ _ (by decide), jldUrl_pres _ _ _ (by decide),
        jldAudience_pres _ _ _ (by decide),
        jldProficiency_pres hd5 (by decide), jldType_pres hd4 (by decide),
        jldKeywords_pres _ _ _ (by decide), jldDescription_pres _ _ _ (by decide),
        jldTitle_pres _ _ _ _ (by decide) (by decide)]
    rfl
  · rw [jldModality_pres _ _ _ (by decide), jldAbout_pres _ _ _ (by decide),
        jldPublisher_self]
  · rw [build_json_ld, hbuild]
    rfl

/-- Claim C9 witness: the empty metadata record and empty context. -/
theorem C9_json_ld_total_witness :
    ∃ d, build_json_ld_data [] ⟨none, [], none, none⟩ = some d ∧
      dget d "@context" = some (.str "https://schema.org") ∧
      dget d "publisher" = some publisherVal ∧
      build_json_ld [] ⟨none, [], none, none⟩ =
        some ("<script type=\"application/ld+json\">\n" ++ jsonDumps (.dict d) ++
          "\n</script>") :=
  C9_json_ld_total [] ⟨none, [], none, none⟩
    (fun h => absurd h (by decide)) (fun h => absurd h (by decide))

/-! ### Claim C2: agreement of the two normalizers on already-v2 records -/

theorem C2_ct_piece (m : Dict) (h6 : dget m "content_type" = none)
    (h : dget m "content" = none ∨ ∃ d0, dget m "content" = some (.dict d0) ∧
      (dget d0 "type" = none ∨ ∃ v, dget d0 "type" = some v ∧ truthy v = true)) :
    ∃ ct, tfContentType m = some ct ∧
      (match ct with | some v => [("type", v)] | none => ([] : Dict)) =
      (if truthy (ctVal m) = true then [("type", ctVal m)] else []) := by
  rcases h with h | ⟨d0, hd, hT | ⟨v, hv, htr⟩⟩
  · refine ⟨none, ?_, ?_⟩
    · rw [tfContentType.eq_def, h]
      show tfLegacyCT m = some none
      rw [tfLegacyCT.eq_def, h6]
    · have hnull : ctVal m = .null := by
        simp only [ctVal]
        rw [get_nested_none_fst h]
        simp [truthy, pyGet, h6]
      rw [hnull]
      simp [truthy]
  · refine ⟨none, ?_, ?_⟩
    · rw [tfContentType.eq_def, hd]
      show (match dget d0 "type" with
            | some v => some (some v)
            | none => tfLegacyCT m) = some none
      rw [hT]
      show tfLegacyCT m = some none
      rw [tfLegacyCT.eq_def, h6]
    · have hnull : ctVal m = .null := by
        simp only [ctVal]
        rw [get_nested_none_snd hd hT]
        simp [truthy, pyGet, h6]
      rw [hnull]
      simp [truthy]
  · refine ⟨some v, ?_, ?_⟩
    · rw [tfContentType.eq_def, hd]
      show (match dget d0 "type" with
            | some v => some (some v)
            | none => tfLegacyCT m) = some (some v)
      rw [hv]
    · have hcv : ctVal m = v := by
        simp only [ctVal]
        rw [get_nested_of_dget hd hv]
        simp [htr]
      rw [hcv, if_pos htr]

theorem C2_cd_piece (m : Dict) (h6 : dget m "difficulty" = none)
    (h : dget m "content" = none ∨ ∃ d0, dget m "content" = some (.dict d0) ∧
      (dget d0 "difficulty" = none ∨ ∃ v, dget d0 "difficulty" = some v ∧ truthy v = true)) :
    ∃ cd, tfDifficulty m = some cd ∧
      (match cd with | some v => [("difficulty", v)] | none => ([] : Dict)) =
      (if truthy (cdVal m) = true then [("difficulty", cdVal m)] else []) := by
  rcases h with h | ⟨d0, hd, hT | ⟨v, hv, htr⟩⟩
  · refine ⟨none, ?_, ?_⟩
    · rw [tfDifficulty.eq_def, h]
      show tfLegacyDiff m = some none
      rw [tfLegacyDiff.eq_def, h6]
    · have hnull : cdVal m = .null := by
        simp only [cdVal]
        rw [get_nested_none_fst h]
        simp [truthy, pyGet, h6]
      rw [hnull]
      simp [truthy]
  · refine ⟨none, ?_, ?_⟩
    · rw [tfDifficulty.eq_def, hd]
      show (match dget d0 "difficulty" with
            | some v => some (some v)
            | none => tfLegacyDiff m) = some none
      rw [hT]
      show tfLegacyDiff m = some none
      rw [tfLegacyDiff.eq_def, h6]
    · have hnull : cdVal m = .null := by
        simp only [cdVal]
        rw [get_nested_none_snd hd hT]
        simp [truthy, pyGet, h6]
      rw [hnull]
      simp [truthy]
  · refine ⟨some v, ?_, ?_⟩
    · rw [tfDifficulty.eq_def, hd]
      show (match dget d0 "difficulty" with
            | some v => some (some v)
            | none => tfLegacyDiff m) = some (some v)
      rw [hv]
    · have hcv : cdVal m = v := by
        simp only [cdVal]
        rw [get_nested_of_dget hd hv]
        simp [htr]
      rw [hcv, if_pos htr]

theorem C2_aud_piece (m : Dict) (h6c : dget m "personas" = none)
    (h : dget m "content" = none ∨ ∃ d0, dget m "content" = some (.dict d0) ∧
      (dget d0 "audience" = none ∨ ∃ xs, dget d0 "audience" = some (.list xs) ∧ xs ≠ [])) :
    ∃ ca a, tfAudience m = some ca ∧ caVal m = some a ∧
      (match ca with | some v => [("audience", v)] | none => ([] : Dict)) =
      (if truthy a = true then [("audience", asList a)] else []) := by
  rcases h with h | ⟨d0, hd, hA | ⟨xs, hxs, hne⟩⟩
  · refine ⟨none, .null, ?_, ?_, ?_⟩
    · rw [tfAudience.eq_def, h]
      show tfLegacyAud m = some none
      rw [tfLegacyAud.eq_def, h6c]
    · simp only [caVal]
      rw [get_nested_none_fst h]
      simp [truthy, pyGet, h6c]
    · simp [truthy]
  · refine ⟨none, .null, ?_, ?_, ?_⟩
    · rw [tfAudience.eq_def, hd]
      show (match dget d0 "audience" with
            | some v => some (some v)
            | none => tfLegacyAud m) = some none
      rw [hA]
      show tfLegacyAud m = some none
      rw [tfLegacyAud.eq_def, h6c]
    · simp only [caVal]
      rw [get_nested_none_snd hd hA]
      simp [truthy, pyGet, h6c]
    · simp [truthy]
  · have htr : truthy (Val.list xs) = true := by simpa [truthy] using hne
    refine ⟨some (.list xs), .list xs, ?_, ?_, ?_⟩
    · rw [tfAudience.eq_def, hd]
      show (match dget d0 "audience" with
            | some v => some (some v)
            | none => tfLegacyAud m) = some (some (.list xs))
      rw [hxs]
    · simp only [caVal]
      rw [get_nested_of_dget hd hxs]
      simp [htr]
    · simp [htr, asList]

/-- Claim C2 counterexample: on `{content_type: "tutorial"}` the rewriter
canonicalizes the legacy value through `CONTENT_TYPE_MAP` while the JSON
projector's normalizer copies it verbatim, so the two normalizers differ. -/
theorem C2_counterexample :
    transform_frontmatter [("content_type", Val.str "tutorial")] =
      some [("content", Val.dict [("type", Val.str "Tutorial")])] ∧
    normalize_metadata_for_json [("content_type", Val.str "tutorial")] =
      some [("content", Val.dict [("type", Val.str "tutorial")])] ∧
    transform_frontmatter [("content_type", Val.str "tutorial")] ≠
      normalize_metadata_for_json [("content_type", Val.str "tutorial")] := by decide

/-- Claim C2 (amended): on records already in truthy v2 shape — title
absent or `{page: p}`, truthy `description`/`status`/`only`, non-empty
list `tags`/`topics`, a dict `social`/`dates`, a `content` record whose
present sub-fields are truthy (audience a non-empty list), `facets` absent
or exactly a truthy modality, no legacy flat keys and no `cascade` —
`transform_frontmatter` returns the same record as
`normalize_metadata_for_json`, key for key.  (In general the two differ:
the rewriter canonicalizes legacy `content_type`/`difficulty` spellings,
keeps falsy present fields, and drops `cascade` — see the
counterexample.) -/
theorem C2_rewriter_refines_normalizer (m : Dict)
    (h1 : dget m "title" = none ∨ ∃ p, dget m "title" = some (.dict [("page", p)]))
    (h2 : dget m "description" = none ∨
      ∃ v, dget m "description" = some v ∧ truthy v = true)
    (h3 : dget m "social" = none ∨ ∃ d, dget m "social" = some (.dict d))
    (h4 : dget m "tags" = none ∨ ∃ xs, dget m "tags" = some (.list xs) ∧ xs ≠ [])
    (h5 : (dget m "topics" = none ∧ dget m "categories" = none) ∨
      ∃ xs, dget m "topics" = some (.list xs) ∧ xs ≠ [])
    (h6 : dget m "content_type" = none) (h6b : dget m "difficulty" = none)
    (h6c : dget m "personas" = none)
    (h7 : dget m "content" = none ∨ ∃ d0, dget m "content" = some (.dict d0) ∧
      (dget d0 "type" = none ∨ ∃ v, dget d0 "type" = some v ∧ truthy v = true) ∧
      (dget d0 "difficulty" = none ∨
        ∃ v, dget d0 "difficulty" = some v ∧ truthy v = true) ∧
      (dget d0 "audience" = none ∨ ∃ xs, dget d0 "audience" = some (.list xs) ∧ xs ≠ [])) :
    (h8 : dget m "facets" = none ∨
      ∃ v, dget m "facets" = some (.dict [("modality", v)]) ∧ truthy v = true) →
    (h8b : dget m "modality" = none) →
    (h9 : dget m "dates" = none ∨ ∃ d, dget m "dates" = some (.dict d)) →
    (h10 : dget m "status" = none ∨ ∃ v, dget m "status" = some v ∧ truthy v = true) →
    (h10b : dget m "only" = none ∨ ∃ v, dget m "only" = some v ∧ truthy v = true) →
    (h11 : dget m "cascade" = none) →
    ∃ t j, transform_frontmatter m = some t ∧
      normalize_metadata_for_json m = some j ∧ ∀ k, dget t k = dget j k := by
  intro h8 h8b h9 h10 h10b h11
  obtain ⟨ct, hct, hctEq⟩ := C2_ct_piece m h6 (by
    rcases h7 with h | ⟨d0, hd, hA, hB, hC⟩
    · exact Or.inl h
    · exact Or.inr ⟨d0, hd, hA⟩)
  obtain ⟨cd, hcd, hcdEq⟩ := C2_cd_piece m h6b (by
    rcases h7 with h | ⟨d0, hd, hA, hB, hC⟩
    · exact Or.inl h
    · exact Or.inr ⟨d0, hd, hB⟩)
  obtain ⟨ca, a, hca, haj, hcaEq⟩ := C2_aud_piece m h6c (by
    rcases h7 with h | ⟨d0, hd, hA, hB, hC⟩
    · exact Or.inl h
    · exact Or.inr ⟨d0, hd, hC⟩)
  have hce : jnContentEntries m = some (tfContentDict ct cd ca) := by
    rw [jnContentEntries, haj]
    simp only [Option.bind_eq_bind, Option.some_bind, Option.pure_def,
      Option.some.injEq]
    rw [tfContentDict.eq_def, hctEq, hcdEq, hcaEq]
  have ht : transform_frontmatter m = some (tfBuild m (tfContentDict ct cd ca)) := by
    rw [transform_frontmatter, hct, hcd, hca]
    simp only [Option.bind_eq_bind, Option.some_bind, Option.pure_def]
  have hj : normalize_metadata_for_json m = some (njBuild m (tfContentDict ct cd ca)) := by
    rw [normalize_metadata_for_json, hce]
    simp only [Option.map_some']
  have eqTitle : tfTitle m = jnTitle m := by
    rcases h1 with h | ⟨p, h⟩ <;> simp [tfTitle, jnTitle, pyGet, h, truthy, dget]
  have eqDesc : dget m "description" = passTruthy m "description" := by
    rcases h2 with h | ⟨v, h, hv⟩
    · simp [passTruthy, pyGet, h, truthy]
    · simp [passTruthy, pyGet, h, hv]
  have eqSocial : dget m "social" = dictOnly m "social" := by
    rcases h3 with h | ⟨d, h⟩ <;> simp [dictOnly, pyGet, h]
  have eqTags : dget m "tags" = jnTags m := by
    rcases h4 with h | ⟨xs, h, hne⟩
    · simp [jnTags, pyGet, h, truthy]
    · have : truthy (Val.list xs) = true := by simpa [truthy] using hne
      simp [jnTags, pyGet, h, this, asList]
  have eqTopics : tfTopics m = jnTopics m := by
    rcases h5 with ⟨h, hcat⟩ | ⟨xs, h, hne⟩
    · simp [tfTopics, jnTopics, jnTopicsSrc, pyGet, h, hcat, truthy]
    · have : truthy (Val.list xs) = true := by simpa [truthy] using hne
      simp [tfTopics, jnTopics, jnTopicsSrc, pyGet, h, this, asList]
  have eqFacets : tfFacets m = jnFacets m := by
    rcases h8 with h | ⟨v, h, hv⟩
    · have : modVal m = .null := by
        simp only [modVal]
        rw [get_nested_none_fst h]
        simp [truthy, pyGet, h8b]
      simp [tfFacets, jnFacets, h, h8b, this, truthy]
    · have hmv : modVal m = v := by
        simp only [modVal]
        rw [get_nested_of_dget h
          (show dget [("modality", v)] "modality" = some v by simp [dget])]
        simp [hv]
      simp [tfFacets, jnFacets, h, hmv, hv]
  have eqDates : dget m "dates" = dictOnly m "dates" := by
    rcases h9 with h | ⟨d, h⟩ <;> simp [dictOnly, pyGet, h]
  have eqStatus : dget m "status" = passTruthy m "status" := by
    rcases h10 with h | ⟨v, h, hv⟩
    · simp [passTruthy, pyGet, h, truthy]
    · simp [passTruthy, pyGet, h, hv]
  have eqOnly : dget m "only" = passTruthy m "only" := by
    rcases h10b with h | ⟨v, h, hv⟩
    · simp [passTruthy, pyGet, h, truthy]
    · simp [passTruthy, pyGet, h, hv]
  have eqCascade : passTruthy m "cascade" = none := by
    simp [passTruthy, pyGet, h11, truthy]
  refine ⟨_, _, ht, hj, ?_⟩
  intro k
  rw [dget_tfBuild, dget_njBuild]
  by_cases k1 : "description" = k
  · subst k1; simp [eqDesc]
  by_cases k2 : "topics" = k
  · subst k2; simp [eqTopics]
  by_cases k3 : "tags" = k
  · subst k3; simp [eqTags]
  by_cases k4 : "content" = k
  · subst k4; simp
  by_cases k5 : "facets" = k
  · subst k5; simp [eqFacets]
  by_cases k6 : "status" = k
  · subst k6; simp [eqStatus]
  by_cases k7 : "dates" = k
  · subst k7; simp [eqDates]
  by_cases k8 : "social" = k
  · subst k8; simp [eqSocial]
  by_cases k9 : "only" = k
  · subst k9; simp [eqOnly]
  by_cases k10 : "title" = k
  · subst k10; simp [eqTitle]
  by_cases k11 : "cascade" = k
  · subst k11; simp [eqCascade]
  simp [k1, k2, k3, k4, k5, k6, k7, k8, k9, k10, k11]

/-- Claim C2 witness: the amended agreement on a concrete v2-shaped
record. -/
theorem C2_rewriter_refines_normalizer_witness :
    ∃ t j, transform_frontmatter
        [("description", Val.str "d"), ("topics", Val.list [Val.str "B"]),
         ("categories", Val.list [Val.str "A"]),
         ("content", Val.dict [("type", Val.str "Tutorial"),
                               ("audience", Val.list [Val.str "Data Scientist"])]),
         ("status", Val.str "active")] = some t ∧
      normalize_metadata_for_json
        [("description", Val.str "d"), ("topics", Val.list [Val.str "B"]),
         ("categories", Val.list [Val.str "A"]),
         ("content", Val.dict [("type", Val.str "Tutorial"),
                               ("audience", Val.list [Val.str "Data Scientist"])]),
         ("status", Val.str "active")] = some j ∧
      ∀ k, dget t k = dget j k :=
  C2_rewriter_refines_normalizer
    [("description", Val.str "d"), ("topics", Val.list [Val.str "B"]),
     ("categories", Val.list [Val.str "A"]),
     ("content", Val.dict [("type", Val.str "Tutorial"),
                           ("audience", Val.list [Val.str "Data Scientist"])]),
     ("status", Val.str "active")]
    (Or.inl (by decide))
    (Or.inr ⟨Val.str "d", by decide, by decide⟩)
    (Or.inl (by decide))
    (Or.inl (by decide))
    (Or.inr ⟨[Val.str "B"], by decide, by decide⟩)
    (by decide) (by decide) (by decide)
    (Or.inr ⟨[("type", Val.str "Tutorial"),
              ("audience", Val.list [Val.str "Data Scientist"])], by decide,
      Or.inr ⟨Val.str "Tutorial", by decide, by decide⟩,
      Or.inl (by decide),
      Or.inr ⟨[Val.str "Data Scientist"], by decide, by decide⟩⟩)
    (Or.inl (by decide)) (by decide)
    (Or.inl (by decide)) (Or.inr ⟨Val.str "active", by decide, by decide⟩)
    (Or.inl (by decide)) (by decide)

end Curator
